import Mathlib

/-!
Shallow embedding of the combat core of a tactical SRPG.

Source files embedded: constants.py (weapon triangle), weapon.py,
skills.py (Skill, trigger/effect evaluation), unit.py (combat-relevant
methods of class Unit, rendered here as `Combatant`), combat.py
(CombatSystem), legendary_items.py (LegendaryWeapon effect surface) and
combat_integration.py (EnhancedCombatSystem).

Modelling conventions:
* Python ints are `Int`.  Python floor division `//` is `Int.fdiv`;
  `int(...)` truncation of a product with a float is `Int.div` of the exact
  rational product (floats such as 0.5, 0.3 appearing in effect payloads are
  carried as exact fractions `Frac`; binary floating-point rounding of
  non-dyadic fractions is not modelled).
* `random.randint(1, 100)` is an oracle stream `rng : Nat → Nat` together
  with a running draw index; every draw the Python code performs consumes
  one index, in program order.
* Python's loosely typed skill payloads (`effect_value` may be an int, a
  float, a bool, a 2-tuple or a dict) become the closed variant `EffVal`.
  Where the Python code would raise `TypeError` on a payload kind
  (e.g. `int(...)` of a dict in the HEAL branch of `apply_effect`), the
  model totalises with a zero contribution; the well-formedness predicate
  used by the hp-monotonicity lemmas restricts payloads to the numeric
  shapes the code processes.
* Mutation is explicit state passing: functions return the updated
  combatants.  Skill objects are aliased between `skills` and
  `active_skills` in Python; the model stores the post-mutation skill value
  in both lists.  The `is_active` flag reset performed on the aliased
  objects by `deactivate_skills` is not tracked into the roster copy,
  because no computation in the embedded code reads `is_active`.
* `perform_combat` additionally returns ghost instrumentation (a trace of
  strikes with the hp values observed just before each strike, and the
  decision flags computed at the counter / follow-up stages).  The ghost
  fields are write-only: no modelled computation reads them, so they do not
  alter the embedded behaviour.
-/

namespace SRPG

/-- constants.WeaponType. -/
inductive WeaponType
  | sword | lance | axe | bow | magic
deriving DecidableEq

/-- Stat attribute names that skill payloads reference via getattr. -/
inductive StatName
  | strength | magic | skill | speed | luck | defense | resistance
deriving DecidableEq

/-- Comparison operator strings used by HP_THRESHOLD trigger values. -/
inductive CmpOp
  | lt | le | gt | ge
deriving DecidableEq

/-- An exact fraction standing in for a Python float payload
(for example 0.5 is ⟨1, 2⟩, 0.3 is ⟨3, 10⟩). -/
structure Frac where
  num : Int
  den : Int
deriving DecidableEq

/-- `int(x * f)` for a float `f`: Python truncates toward zero, as does
`Int.tdiv` on the exact rational product. -/
def truncMul (x : Int) (f : Frac) : Int := Int.tdiv (x * f.num) f.den

/-- `0 <= f <= 1` for a float payload (read with a positive denominator). -/
def Frac.between01 (f : Frac) : Bool := decide (0 ≤ f.num ∧ f.num ≤ f.den)

/-- skills.SkillTriggerType. -/
inductive TriggerType
  | percentage | statBased | onAttack | onDefend | onKill | onDamage
  | preCombat | postCombat | onTurnStart | onTurnEnd | alwaysActive
  | hpThreshold | weaponType
deriving DecidableEq

/-- skills.SkillEffectType. -/
inductive EffectType
  | statBoost | damageBoost | damageReduce | hitBoost | avoidBoost
  | criticalBoost | counterAttack | followUp | heal | specialAttack
  | specialMovement | terrainEffect | weaponEffect | rangeChange
  | statusImmunity
deriving DecidableEq

/-- The dict-shaped effect payloads appearing in the source
(`{"attacks": …, "damage_multiplier": …}`, `{"defense_pierce": …}`,
`{"heal_ratio": …}`, `{"vantage": True}`,
`{"condition": "opponent_weapon_type == WeaponType.X", "hit_bonus": …}`).
A key is `none` / `false` / `0` when absent from the Python dict.
`condOppWeapon` models a "condition" string mentioning
`opponent_weapon_type` together with the weapon type it names. -/
structure EffDict where
  attacks : Option Nat := none
  dmgMult : Option Frac := none
  defPierce : Option Frac := none
  healFrac : Option Frac := none
  vantage : Bool := false
  condOppWeapon : Option WeaponType := none
  hitBonus : Int := 0
  avoidBonus : Int := 0
deriving DecidableEq

/-- The union type of `Skill.effect_value`. -/
inductive EffVal
  | intv (n : Int)
  | floatv (f : Frac)
  | boolv (b : Bool)
  | pairv (stat : StatName) (n : Int)
  | dictv (d : EffDict)
deriving DecidableEq

/-- Additive reading of an effect payload, used where the source writes
`acc += skill.effect_value`.  Python would raise on a tuple or dict there
and would propagate a float; the modelled state space takes integral
payloads for the additive boost kinds (bools add as 0/1 as in Python). -/
def EffVal.addInt : EffVal → Int
  | .intv n => n
  | .boolv b => if b then 1 else 0
  | _ => 0

/-- The union type of `Skill.trigger_value`. -/
inductive TrigVal
  | nonev
  | intv (n : Int)
  | statPair (stat : StatName) (mult : Frac)
  | cmpPair (op : CmpOp) (threshold : Int)
  | weaponv (w : WeaponType)
deriving DecidableEq

/-- skills.Skill (definition plus the mutable `remaining_duration` /
`is_active` fields). -/
structure Skill where
  name : String
  triggerType : TriggerType
  effectType : EffectType
  trigVal : TrigVal
  effVal : EffVal
  duration : Int
  remainingDuration : Int
  isActive : Bool
deriving DecidableEq

/-- legendary_items.ItemEffect.effect_type strings that the combat code
inspects. -/
inductive ItemEffectKind
  | statBoost | skillGrant | hitBoost | damageBoost | damageReduce
  | criticalBoost | specialAttack | heal | counterAttack | followUp
  | special
deriving DecidableEq

/-- legendary_items.ItemEffect.  `value` models
`effect_value.get("value", 0)`, `dict` the dict payload read by the
special_attack / heal branches, `statBoosts` the `"stats"` sub-dict,
`grantSkill` the `"skill"` payload of a skill_grant effect, and `truthy`
the Python truthiness of `effect_value` tested by the counter_attack /
follow_up branches. -/
structure ItemEffect where
  kind : ItemEffectKind
  value : Int := 0
  dict : EffDict := {}
  statBoosts : List (StatName × Int) := []
  grantSkill : Option Skill := none
  truthy : Bool := true
deriving DecidableEq

/-- weapon.Weapon, extended with the LegendaryWeapon surface
(`isLegendary` models `isinstance(w, LegendaryWeapon)`; `effects` and
`weaponSkills` are the legendary `effects` / `skills` lists, empty on
plain weapons). -/
structure Weapon where
  weaponType : WeaponType
  might : Int
  hit : Int
  crit : Int
  weight : Int
  rangeMin : Int
  rangeMax : Int
  durability : Int
  isLegendary : Bool := false
  effects : List ItemEffect := []
  weaponSkills : List Skill := []
deriving DecidableEq

/-- unit.Unit, restricted to the fields the combat core reads or writes
(renamed: `Unit` is the Lean base type). -/
structure Combatant where
  maxHp : Int
  currentHp : Int
  strength : Int
  magic : Int
  skill : Int
  speed : Int
  luck : Int
  defense : Int
  resistance : Int
  x : Int
  y : Int
  equippedWeapon : Option Weapon
  skills : List Skill
  activeSkills : List Skill
  tempStatModifiers : List (StatName × Int)
deriving DecidableEq

/-- The battlefield query surface used by the combat core
(`game_map.get_terrain_dodge` / `get_terrain_defense`). -/
structure GameMap where
  terrainDodge : Int → Int → Int
  terrainDefense : Int → Int → Int

/-- The `combat_data` dict threaded through skill activation, with the
keys the embedded code reads or writes. -/
structure CombatData where
  isAttacker : Bool
  targetKilled : Bool := false
  damageDealt : Int := 0
  damageReceived : Int := 0
  damageModifier : Int := 0
  damageReduction : Int := 0
  hitModifier : Int := 0
  avoidModifier : Int := 0
  critModifier : Int := 0
  guaranteedFollowUp : Bool := false
  guaranteedCounter : Bool := false
  tempStats : List (StatName × Int) := []
deriving DecidableEq

/-- getattr(unit, stat_name) for the modelled stat names. -/
def Combatant.getStat (u : Combatant) : StatName → Int
  | .strength => u.strength
  | .magic => u.magic
  | .skill => u.skill
  | .speed => u.speed
  | .luck => u.luck
  | .defense => u.defense
  | .resistance => u.resistance

/-- Unit.get_attack_power. -/
def Combatant.get_attack_power (u : Combatant) : Int :=
  match u.equippedWeapon with
  | none => 0
  | some w =>
      if w.weaponType = WeaponType.magic then u.magic + w.might
      else u.strength + w.might

/-- Unit.get_hit_rate. -/
def Combatant.get_hit_rate (u : Combatant) : Int :=
  match u.equippedWeapon with
  | none => 0
  | some w => w.hit + u.skill * 2 + Int.fdiv u.luck 2

/-- Unit.get_avoid. -/
def Combatant.get_avoid (u : Combatant) : Int := u.speed * 2 + u.luck

/-- Unit.get_critical_rate. -/
def Combatant.get_critical_rate (u : Combatant) : Int :=
  match u.equippedWeapon with
  | none => 0
  | some w => w.crit + Int.fdiv u.skill 2

/-- Unit.get_attack_speed. -/
def Combatant.get_attack_speed (u : Combatant) : Int :=
  match u.equippedWeapon with
  | none => u.speed
  | some w => max 0 (u.speed - max 0 (w.weight - Int.fdiv u.strength 5))

/-- Unit.can_double_attack. -/
def Combatant.can_double_attack (u target : Combatant) : Bool :=
  decide (u.get_attack_speed ≥ target.get_attack_speed + 4)

/-- Unit.is_dead. -/
def Combatant.is_dead (u : Combatant) : Bool := decide (u.currentHp ≤ 0)

/-- Unit.deactivate_skills.  (The `is_active := False` writes go to skill
objects aliased from the roster; no embedded computation reads
`is_active`, so only the two field resets are observable.) -/
def Combatant.deactivate_skills (u : Combatant) : Combatant :=
  { u with activeSkills := [], tempStatModifiers := [] }

/-- The HP_THRESHOLD comparison `current_hp / max_hp * 100 <op> threshold`,
as an exact rational comparison (valid for `max_hp > 0`, which every
constructed unit satisfies). -/
def hpThresholdHolds (u : Combatant) (op : CmpOp) (t : Int) : Bool :=
  match op with
  | .lt => decide (u.currentHp * 100 < t * u.maxHp)
  | .le => decide (u.currentHp * 100 ≤ t * u.maxHp)
  | .gt => decide (u.currentHp * 100 > t * u.maxHp)
  | .ge => decide (u.currentHp * 100 ≥ t * u.maxHp)

/-- Skill.check_trigger.  Returns the verdict and the advanced draw index
(the PERCENTAGE and STAT_BASED branches consume one `randint` draw). -/
def Skill.check_trigger (s : Skill) (u : Combatant) (cd : Option CombatData)
    (rng : Nat → Nat) (k : Nat) : Bool × Nat :=
  match s.triggerType with
  | .percentage =>
      -- the draw happens before the comparison; a non-int trigger_value
      -- would make the comparison raise, modelled as false
      match s.trigVal with
      | .intv n => (decide ((rng k : Int) ≤ n), k + 1)
      | _ => (false, k + 1)
  | .statBased =>
      match s.trigVal with
      | .statPair stat mult =>
          -- roll <= stat_value * multiplier, exact rational comparison
          (decide ((rng k : Int) * mult.den ≤ u.getStat stat * mult.num), k + 1)
      | _ => (false, k)
  | .hpThreshold =>
      match s.trigVal with
      | .cmpPair op t => (hpThresholdHolds u op t, k)
      | _ => (false, k)
  | .weaponType =>
      match u.equippedWeapon, s.trigVal with
      | some w, .weaponv wt => (decide (w.weaponType = wt), k)
      | _, _ => (false, k)
  | .alwaysActive => (true, k)
  | .onAttack =>
      match cd with
      | some c => (c.isAttacker, k)
      | none => (false, k)
  | .onDefend =>
      match cd with
      | some c => (!c.isAttacker, k)
      | none => (false, k)
  | .onKill =>
      match cd with
      | some c => (c.targetKilled, k)
      | none => (false, k)
  | .onDamage =>
      match cd with
      | some c => (decide (c.damageReceived > 0), k)
      | none => (false, k)
  | _ => (false, k)

/-- The heal amount computed by the HEAL branch of Skill.apply_effect.
`int(...)` of a dict or tuple raises in Python; modelled as 0 (see the
file comment). -/
def healAmount (u : Combatant) : EffVal → Int
  | .floatv f =>
      if f.between01 then truncMul u.maxHp f
      else Int.tdiv f.num f.den
  | .intv n => n
  | .boolv b => if b then 1 else 0
  | _ => 0

/-- Skill.apply_effect: applies the effect to the unit / combat data and
performs the duration bookkeeping, returning the mutated skill. -/
def Skill.apply_effect (s : Skill) (u : Combatant) (cd : CombatData) :
    Skill × Combatant × CombatData :=
  let (u1, cd1) :=
    match s.effectType with
    | .statBoost =>
        match s.effVal with
        | .pairv stat n =>
            (u, { cd with tempStats := cd.tempStats ++ [(stat, u.getStat stat + n)] })
        | _ => (u, cd)
    | .damageBoost =>
        (u, { cd with damageModifier := cd.damageModifier + s.effVal.addInt })
    | .damageReduce =>
        (u, { cd with damageReduction := cd.damageReduction + s.effVal.addInt })
    | .hitBoost =>
        (u, { cd with hitModifier := cd.hitModifier + s.effVal.addInt })
    | .avoidBoost =>
        (u, { cd with avoidModifier := cd.avoidModifier + s.effVal.addInt })
    | .criticalBoost =>
        (u, { cd with critModifier := cd.critModifier + s.effVal.addInt })
    | .heal =>
        ({ u with currentHp := min u.maxHp (u.currentHp + healAmount u s.effVal) }, cd)
    | .followUp => (u, { cd with guaranteedFollowUp := true })
    | .counterAttack => (u, { cd with guaranteedCounter := true })
    | _ => (u, cd)
  let s1 :=
    if s.duration > 0 then
      let rd := s.remainingDuration - 1
      if rd ≤ 0 then { s with remainingDuration := rd, isActive := false }
      else { s with remainingDuration := rd }
    else s
  (s1, u1, cd1)

/-- The loop body of Unit.activate_skills over the roster list: skills
whose trigger type matches are checked and, when triggered, marked active,
appended to `active_skills` and applied. -/
def activateGo (t : TriggerType) (rng : Nat → Nat) :
    List Skill → Combatant → CombatData → Nat →
    List Skill × Combatant × CombatData × Nat
  | [], u, cd, k => ([], u, cd, k)
  | s :: rest, u, cd, k =>
      if s.triggerType = t then
        let ck := s.check_trigger u (some cd) rng k
        if ck.1 then
          let s1 : Skill := { s with isActive := true }
          let (s2, u2, cd2) := s1.apply_effect u cd
          let u3 := { u2 with activeSkills := u2.activeSkills ++ [s2] }
          let (rest2, u4, cd3, k2) := activateGo t rng rest u3 cd2 ck.2
          (s2 :: rest2, u4, cd3, k2)
        else
          let (rest2, u2, cd2, k2) := activateGo t rng rest u cd ck.2
          (s :: rest2, u2, cd2, k2)
      else
        let (rest2, u2, cd2, k2) := activateGo t rng rest u cd k
        (s :: rest2, u2, cd2, k2)

/-- Unit.activate_skills. -/
def Combatant.activate_skills (u : Combatant) (t : TriggerType)
    (cd : CombatData) (rng : Nat → Nat) (k : Nat) :
    Combatant × CombatData × Nat :=
  let (sk, u1, cd1, k1) := activateGo t rng u.skills u cd k
  ({ u1 with skills := sk }, cd1, k1)

/-- constants.WEAPON_TRIANGLE lookup: +1 on the favourable edge, −1 on the
reverse edge, 0 for every other pair (bow and magic are not in the map). -/
def weaponTriangle : WeaponType → WeaponType → Int
  | .sword, .axe => 1
  | .sword, .lance => -1
  | .lance, .sword => 1
  | .lance, .axe => -1
  | .axe, .lance => 1
  | .axe, .sword => -1
  | _, _ => 0

/-- Sum of HIT_BOOST effect values over a list of active skills. -/
def hitBoostSum (l : List Skill) : Int :=
  l.foldl (fun acc s => if s.effectType = .hitBoost then acc + s.effVal.addInt else acc) 0

/-- The conditional SPECIAL_ATTACK hit bonus (axebreaker-style): fires when
the payload's condition names the defender's equipped weapon type. -/
def specialHitBonus (l : List Skill) (defWeapon : Option Weapon) : Int :=
  l.foldl (fun acc s =>
    if s.effectType = .specialAttack then
      match s.effVal, defWeapon with
      | .dictv dct, some wb =>
          match dct.condOppWeapon with
          | some wt => if wb.weaponType = wt then acc + dct.hitBonus else acc
          | none => acc
      | _, _ => acc
    else acc) 0

/-- Sum of AVOID_BOOST effect values over a list of active skills. -/
def avoidBoostSum (l : List Skill) : Int :=
  l.foldl (fun acc s => if s.effectType = .avoidBoost then acc + s.effVal.addInt else acc) 0

/-- CombatSystem.calculate_hit_chance. -/
def calculate_hit_chance (a d : Combatant) (m : GameMap) : Int :=
  let hitRate := a.get_hit_rate
  let avoid := d.get_avoid
  let terrainDodge := m.terrainDodge d.x d.y
  let weaponBonus :=
    match a.equippedWeapon, d.equippedWeapon with
    | some wa, some wd => weaponTriangle wa.weaponType wd.weaponType * 15
    | _, _ => 0
  let hitModifier := hitBoostSum a.activeSkills + specialHitBonus a.activeSkills d.equippedWeapon
  let avoidModifier := avoidBoostSum d.activeSkills
  max 0 (min 100 (hitRate + weaponBonus + hitModifier - avoid - terrainDodge - avoidModifier))

/-- Sum of DAMAGE_BOOST effect values over a list of active skills. -/
def dmgBoostSum (l : List Skill) : Int :=
  l.foldl (fun acc s => if s.effectType = .damageBoost then acc + s.effVal.addInt else acc) 0

/-- Sum of DAMAGE_REDUCE effects: a float payload reduces proportionally to
`attack_power - defense_stat`, any other payload reduces by its value. -/
def dmgReduceSum (l : List Skill) (attackPower defenseStat : Int) : Int :=
  l.foldl (fun acc s =>
    if s.effectType = .damageReduce then
      match s.effVal with
      | .floatv f => acc + truncMul (attackPower - defenseStat) f
      | v => acc + v.addInt
    else acc) 0

/-- The SPECIAL_ATTACK defense-pierce contribution (moonlight-style). -/
def pierceSum (l : List Skill) (defenseStat : Int) : Int :=
  l.foldl (fun acc s =>
    if s.effectType = .specialAttack then
      match s.effVal with
      | .dictv dct =>
          match dct.defPierce with
          | some f => acc + truncMul defenseStat f
          | none => acc
      | _ => acc
    else acc) 0

/-- CombatSystem.calculate_damage. -/
def calculate_damage (a d : Combatant) (m : GameMap) : Int :=
  let attackPower := a.get_attack_power
  let isMagic :=
    match a.equippedWeapon with
    | some w => decide (w.weaponType = WeaponType.magic)
    | none => false
  let defenseStat := if isMagic then d.resistance else d.defense
  let terrainDefense := m.terrainDefense d.x d.y
  let weaponBonus :=
    match a.equippedWeapon, d.equippedWeapon with
    | some wa, some wd => weaponTriangle wa.weaponType wd.weaponType * 1
    | _, _ => 0
  let damageModifier := dmgBoostSum a.activeSkills + pierceSum a.activeSkills defenseStat
  let damageReduction := dmgReduceSum d.activeSkills attackPower defenseStat
  max 0 (attackPower + weaponBonus + damageModifier - defenseStat - terrainDefense - damageReduction)

/-- Sum of CRITICAL_BOOST effect values over a list of active skills. -/
def critBoostSum (l : List Skill) : Int :=
  l.foldl (fun acc s => if s.effectType = .criticalBoost then acc + s.effVal.addInt else acc) 0

/-- CombatSystem.calculate_crit_chance. -/
def calculate_crit_chance (a d : Combatant) : Int :=
  max 0 (min 100 (a.get_critical_rate + critBoostSum a.activeSkills - d.luck))

/-- The per-strike result dict built by perform_attack. -/
structure StrikeResult where
  hit : Bool
  damage : Int
  critical : Bool
  killed : Bool
  hitChance : Int
  critChance : Int
  multiAttack : Bool
  attackCount : Nat
deriving DecidableEq

/-- The multi-attack configuration scan over the striker's active skills:
the last SPECIAL_ATTACK skill whose dict payload carries "attacks" wins
(the Python loop overwrites on each match).  Result:
(multi_attack, attack_count, damage_multiplier). -/
def multiStep (acc : Bool × Nat × Frac) (s : Skill) : Bool × Nat × Frac :=
  if s.effectType = .specialAttack then
    match s.effVal with
    | .dictv dct =>
        match dct.attacks with
        | some n => (true, n, dct.dmgMult.getD ⟨1, 1⟩)
        | none => acc
    | _ => acc
  else acc

def multiScan (l : List Skill) : Bool × Nat × Frac :=
  l.foldl multiStep (false, 1, ⟨1, 1⟩)

/-- The multi-hit loop of perform_attack: hit `i` deals
`int(damage * multiplier)` (tripled on `i = 0` for a critical), hp is
clamped at 0 after each hit, and the loop breaks once the defender is
dead.  Arguments: per-hit base damage, multiplier, critical flag, current
hit index, remaining hits, defender hp, accumulated total.
Returns (final hp, total damage). -/
def multiGo (damage : Int) (mult : Frac) (crit : Bool) :
    Nat → Nat → Int → Int → Int × Int
  | _, 0, hp, total => (hp, total)
  | i, rem + 1, hp, total =>
      let d0 := truncMul damage mult
      let d := if i = 0 ∧ crit then d0 * 3 else d0
      let hp1 := max 0 (hp - d)
      let total1 := total + d
      if hp1 ≤ 0 then (hp1, total1)
      else multiGo damage mult crit (i + 1) rem hp1 total1

/-- The post-strike heal scan of perform_attack: each active HEAL skill
with a "heal_ratio" dict payload heals the striker by
`int(total_damage * heal_ratio)`, capped at max hp. -/
def healStep (total : Int) (acc : Combatant) (s : Skill) : Combatant :=
  if s.effectType = .heal then
    match s.effVal with
    | .dictv dct =>
        match dct.healFrac with
        | some f => { acc with currentHp := min acc.maxHp (acc.currentHp + truncMul total f) }
        | none => acc
    | _ => acc
  else acc

def healScan (l : List Skill) (total : Int) (u : Combatant) : Combatant :=
  l.foldl (healStep total) u

/-- Decrement the equipped weapon's durability by one (no lower bound),
as `attacker.equipped_weapon.durability -= 1`. -/
def useWeapon (u : Combatant) : Combatant :=
  { u with equippedWeapon := u.equippedWeapon.map (fun w => { w with durability := w.durability - 1 }) }

/-- The return value of perform_attack: the result dict plus the mutated
attacker and defender states and the advanced draw index.  `baseDamage` is
ghost instrumentation recording the `damage` value the strike computed
(no modelled computation reads it). -/
structure AttackOut where
  result : StrikeResult
  attacker : Combatant
  defender : Combatant
  k : Nat
  baseDamage : Int
deriving DecidableEq

/-- CombatSystem.perform_attack.  Draw order: any trigger draws during the
ON_ATTACK / ON_DEFEND activation passes (none occur for these trigger
types), then the hit roll, then the crit roll. -/
def perform_attack (a b : Combatant) (m : GameMap) (rng : Nat → Nat) (k : Nat) : AttackOut :=
  let cd0 : CombatData := { isAttacker := true }
  let (a1, cd1, k1) := a.activate_skills .onAttack cd0 rng k
  let (b1, cd2, k2) := b.activate_skills .onDefend cd1 rng k1
  let hitChance := calculate_hit_chance a1 b1 m
  let damage := calculate_damage a1 b1 m
  let critChance := calculate_crit_chance a1 b1
  let hit := decide ((rng k2 : Int) ≤ hitChance)
  let crit := hit && decide ((rng (k2 + 1) : Int) ≤ critChance)
  let k3 := k2 + 2
  let cfg := multiScan a1.activeSkills
  let (a2, b2, total) :=
    if hit then
      let (bHp, total) :=
        if cfg.1 then
          multiGo damage cfg.2.2 crit 0 cfg.2.1 b1.currentHp 0
        else
          let ad := if crit then damage * 3 else damage
          (max 0 (b1.currentHp - ad), ad)
      let b2 := { b1 with currentHp := bHp }
      let a2 := useWeapon (healScan a1.activeSkills total a1)
      (a2, b2, total)
    else (a1, b1, (0 : Int))
  let result : StrikeResult :=
    { hit := hit
      damage := if hit then total else 0
      critical := crit
      killed := b2.is_dead
      hitChance := hitChance
      critChance := critChance
      multiAttack := cfg.1
      attackCount := if cfg.1 && hit then cfg.2.1 else 1 }
  let (a3, cd3, k4) :=
    if hit && decide (total > 0) then
      a2.activate_skills .onDamage { cd2 with damageDealt := total } rng k3
    else (a2, cd2, k3)
  let (a4, _, k5) :=
    if b2.is_dead then
      a3.activate_skills .onKill { cd3 with targetKilled := true } rng k4
    else (a3, cd3, k4)
  ⟨result, a4, b2, k5, damage⟩

/-- Stages of the exchange state machine (ghost labels for the trace). -/
inductive Stage
  | initiate | counter | followUp
deriving DecidableEq

/-- Ghost trace entry: one strike, with the striker's original role, both
combatants' hp as observed immediately before the strike, and the strike's
result. -/
structure CombatEvent where
  stage : Stage
  byOriginalAttacker : Bool
  strikerHpBefore : Int
  struckHpBefore : Int
  result : StrikeResult
deriving DecidableEq

/-- Ghost record of the counter-stage decision flags. -/
structure CounterInfo where
  rangeOk : Bool
  guaranteed : Bool
deriving DecidableEq

/-- Ghost record of the follow-up-stage decision flags. -/
structure FollowInfo where
  aCanDouble : Bool
  aGuaranteed : Bool
  dCanDouble : Bool
  dGuaranteed : Bool
  canCounter : Bool
deriving DecidableEq

/-- The results dict returned by perform_combat (plus final combatant
states and the ghost instrumentation). -/
structure CombatOutcome where
  attackerResults : List StrikeResult
  defenderResults : List StrikeResult
  attackerUnit : Combatant
  defenderUnit : Combatant
  activatedAttacker : List String
  activatedDefender : List String
  swapRoles : Bool
  trace : List CombatEvent
  counterInfo : Option CounterInfo
  followInfo : Option FollowInfo

/-- `sum(r.get("damage", 0) for r in results)`. -/
def sumDamage (l : List StrikeResult) : Int :=
  l.foldl (fun acc r => acc + r.damage) 0

/-- One strike under the current role binding: `strikerIsOrigAttacker`
says which original-role combatant is the `perform_attack` attacker.
Returns the result and the updated combatants in original-role order. -/
def strikeBy (strikerIsOrigAttacker : Bool) (aU dU : Combatant) (m : GameMap)
    (rng : Nat → Nat) (k : Nat) : StrikeResult × Combatant × Combatant × Nat :=
  if strikerIsOrigAttacker then
    let o := perform_attack aU dU m rng k
    (o.result, o.attacker, o.defender, o.k)
  else
    let o := perform_attack dU aU m rng k
    (o.result, o.defender, o.attacker, o.k)

/-- The terminal block duplicated at every exit of perform_combat: swap
the result buckets back when roles were swapped, run the POST_COMBAT
activation passes with the aggregate damage sums, snapshot the activated
skill names, and deactivate both combatants' skills.  (At the
lethal-initiate exit the source hardcodes the 0 sums, which coincide with
the generic sums because the corresponding bucket is empty there.) -/
def finish_combat (swap : Bool) (aRes dRes : List StrikeResult)
    (aU dU : Combatant) (aTk dTk : Bool) (rng : Nat → Nat) (k : Nat)
    (trace : List CombatEvent) (cInfo : Option CounterInfo)
    (fInfo : Option FollowInfo) : CombatOutcome :=
  let aR := if swap then dRes else aRes
  let dR := if swap then aRes else dRes
  let aData : CombatData :=
    { isAttacker := true, damageDealt := sumDamage aR,
      damageReceived := sumDamage dR, targetKilled := aTk }
  let dData : CombatData :=
    { isAttacker := false, damageDealt := sumDamage dR,
      damageReceived := sumDamage aR, targetKilled := dTk }
  let (aU1, _, k1) := aU.activate_skills .postCombat aData rng k
  let (dU1, _, _) := dU.activate_skills .postCombat dData rng k1
  { attackerResults := aR
    defenderResults := dR
    attackerUnit := aU1.deactivate_skills
    defenderUnit := dU1.deactivate_skills
    activatedAttacker := aU1.activeSkills.map (fun s => s.name)
    activatedDefender := dU1.activeSkills.map (fun s => s.name)
    swapRoles := swap
    trace := trace
    counterInfo := cInfo
    followInfo := fInfo }

/-- The vantage scan of perform_combat: any roster skill with trigger
HP_THRESHOLD and effect SPECIAL_ATTACK whose (pure) trigger holds and
whose dict payload sets "vantage". -/
def hasVantage (u : Combatant) (cd : CombatData) (rng : Nat → Nat) (k : Nat) : Bool :=
  u.skills.any (fun s =>
    decide (s.triggerType = TriggerType.hpThreshold) &&
    decide (s.effectType = EffectType.specialAttack) &&
    (s.check_trigger u (some cd) rng k).1 &&
    (match s.effVal with
     | .dictv dct => dct.vantage
     | _ => false))

/-- The counter range check:
`temp_defender.equipped_weapon and range_min <= dist <= range_max`
with Manhattan distance between the two combatants. -/
def counterRangeCheck (ta td : Combatant) : Bool :=
  match td.equippedWeapon with
  | some w =>
      let dist := (ta.x - td.x).natAbs + (ta.y - td.y).natAbs
      decide (w.rangeMin ≤ (dist : Int)) && decide ((dist : Int) ≤ w.rangeMax)
  | none => false

/-- Does the list of active skills contain an effect of the given kind?
(The Python loops break at the first match, setting a flag.) -/
def hasActiveEffect (l : List Skill) (e : EffectType) : Bool :=
  l.any (fun s => decide (s.effectType = e))

/-- The follow-up stage of the exchange: the side that struck first gets
the extra strike when eligible (speed margin or guaranteed effect);
otherwise the second striker is evaluated, additionally gated on having
been able to counter.  Every path ends in the terminal block. -/
def coreFollow (swap canCounter : Bool) (cInfo : Option CounterInfo)
    (aRes2 dRes2 : List StrikeResult) (aU2 dU2 : Combatant) (m : GameMap)
    (rng : Nat → Nat) (k4 : Nat) (trace2 : List CombatEvent) : CombatOutcome :=
  let ta2 := if swap then dU2 else aU2
  let td2 := if swap then aU2 else dU2
  let gfA := hasActiveEffect ta2.activeSkills .followUp
  let gfD := hasActiveEffect td2.activeSkills .followUp
  let aCanDouble := ta2.can_double_attack td2
  let dCanDouble := td2.can_double_attack ta2
  let fInfo : Option FollowInfo := some ⟨aCanDouble, gfA, dCanDouble, gfD, canCounter⟩
  if aCanDouble || gfA then
    let (r3, aU3, dU3, k5) := strikeBy (!swap) aU2 dU2 m rng k4
    let e3 : CombatEvent :=
      { stage := .followUp, byOriginalAttacker := !swap,
        strikerHpBefore := ta2.currentHp,
        struckHpBefore := td2.currentHp, result := r3 }
    let aRes3 := if swap then aRes2 else aRes2 ++ [r3]
    let dRes3 := if swap then dRes2 ++ [r3] else dRes2
    let td3 := if swap then aU3 else dU3
    if td3.is_dead then
      finish_combat swap aRes3 dRes3 aU3 dU3 dU3.is_dead false rng k5 (trace2 ++ [e3]) cInfo fInfo
    else
      finish_combat swap aRes3 dRes3 aU3 dU3 dU3.is_dead aU3.is_dead rng k5 (trace2 ++ [e3]) cInfo fInfo
  else if canCounter && (dCanDouble || gfD) then
    let (r3, aU3, dU3, k5) := strikeBy swap aU2 dU2 m rng k4
    let e3 : CombatEvent :=
      { stage := .followUp, byOriginalAttacker := swap,
        strikerHpBefore := td2.currentHp,
        struckHpBefore := ta2.currentHp, result := r3 }
    let aRes3 := if swap then aRes2 ++ [r3] else aRes2
    let dRes3 := if swap then dRes2 else dRes2 ++ [r3]
    let ta3 := if swap then dU3 else aU3
    if ta3.is_dead then
      finish_combat swap aRes3 dRes3 aU3 dU3 dU3.is_dead aU3.is_dead rng k5 (trace2 ++ [e3]) cInfo fInfo
    else
      finish_combat swap aRes3 dRes3 aU3 dU3 dU3.is_dead aU3.is_dead rng k5 (trace2 ++ [e3]) cInfo fInfo
  else
    finish_combat swap aRes2 dRes2 aU2 dU2 dU2.is_dead aU2.is_dead rng k4 trace2 cInfo fInfo

/-- The counter stage of the exchange: the counter fires when the range
check passes (weapon equipped and distance within range) or a
guaranteed-counter effect is active; a lethal counter exits through the
terminal block, everything else proceeds to the follow-up stage. -/
def coreCounter (swap : Bool) (aRes1 dRes1 : List StrikeResult)
    (aU1 dU1 : Combatant) (m : GameMap) (rng : Nat → Nat) (k3 : Nat)
    (e1 : CombatEvent) : CombatOutcome :=
  let ta1 := if swap then dU1 else aU1
  let td1 := if swap then aU1 else dU1
  let rangeOk := counterRangeCheck ta1 td1
  let guaranteed := hasActiveEffect td1.activeSkills .counterAttack
  let canCounter := rangeOk || guaranteed
  let cInfo : Option CounterInfo := some ⟨rangeOk, guaranteed⟩
  if canCounter then
    let (r2, aU2, dU2, k4) := strikeBy swap aU1 dU1 m rng k3
    let e2 : CombatEvent :=
      { stage := .counter, byOriginalAttacker := swap,
        strikerHpBefore := td1.currentHp,
        struckHpBefore := ta1.currentHp, result := r2 }
    let aRes2 := if swap then aRes1 ++ [r2] else aRes1
    let dRes2 := if swap then dRes1 else dRes1 ++ [r2]
    let ta2 := if swap then dU2 else aU2
    if ta2.is_dead then
      finish_combat swap aRes2 dRes2 aU2 dU2 dU2.is_dead aU2.is_dead rng k4 [e1, e2] cInfo none
    else
      coreFollow swap canCounter cInfo aRes2 dRes2 aU2 dU2 m rng k4 [e1, e2]
  else
    coreFollow swap canCounter cInfo aRes1 dRes1 aU1 dU1 m rng k3 [e1]

/-- The body of CombatSystem.perform_combat from the initiating strike
onward.  State passing keeps the two combatants in original-role order
(`aU0` the caller's attacker, `dU0` the caller's defender); `swap` plays
the role of `swap_roles` and the temp roles are recovered from it at
each site, exactly as the source aliases `temp_attacker` /
`temp_defender`. -/
def perform_combat_core (swap : Bool) (aU0 dU0 : Combatant) (m : GameMap)
    (rng : Nat → Nat) (k2 : Nat) : CombatOutcome :=
  -- the initiating strike by the temp attacker
  let (r1, aU1, dU1, k3) := strikeBy (!swap) aU0 dU0 m rng k2
  let e1 : CombatEvent :=
    { stage := .initiate, byOriginalAttacker := !swap,
      strikerHpBefore := (if swap then dU0 else aU0).currentHp,
      struckHpBefore := (if swap then aU0 else dU0).currentHp, result := r1 }
  let aRes1 := if swap then ([] : List StrikeResult) else [r1]
  let dRes1 := if swap then [r1] else ([] : List StrikeResult)
  let td1 := if swap then aU1 else dU1
  if td1.is_dead then
    finish_combat swap aRes1 dRes1 aU1 dU1 dU1.is_dead false rng k3 [e1] none none
  else
    coreCounter swap aRes1 dRes1 aU1 dU1 m rng k3 e1

/-- CombatSystem.perform_combat: the vantage scans, the role-swap
decision and the PRE_COMBAT activation passes, then the exchange body. -/
def perform_combat (attacker defender : Combatant) (m : GameMap) (rng : Nat → Nat) : CombatOutcome :=
  let preA : CombatData := { isAttacker := true }
  let preD : CombatData := { isAttacker := false }
  let aHasV := hasVantage attacker preA rng 0
  let dHasV := hasVantage defender preD rng 0
  let swap := dHasV && !aHasV
  let (aU0, _, k1) := attacker.activate_skills .preCombat preA rng 0
  let (dU0, _, k2) := defender.activate_skills .preCombat preD rng k1
  perform_combat_core swap aU0 dU0 m rng k2

/-!
EnhancedCombatSystem (combat_integration.py), taken on its
`support_system=None` path (the `if support_system:` blocks are skipped;
no claim involves support bonuses).  The module-level names it references
(`random`, `SkillTriggerType`, `SkillEffectType`) resolve to the same
entities as in combat.py, which is the evident intent of the code.
-/

/-- LegendaryWeapon.get_granted_skills: the "skill" payloads of
skill_grant effects, then the weapon's own skills list. -/
def Weapon.get_granted_skills (w : Weapon) : List Skill :=
  (w.effects.filterMap (fun e => if e.kind = .skillGrant then e.grantSkill else none))
    ++ w.weaponSkills

/-- The skill-granting loop of EnhancedCombatSystem.perform_attack:
each granted skill not already in the attacker's roster is appended.
(Python's `in` compares object identity here; the model compares
structurally, which agrees whenever the roster holds no duplicate equal
skills — in particular on the states the claims evaluate.) -/
def grantWeaponSkills (u : Combatant) : Combatant :=
  match u.equippedWeapon with
  | some w =>
      if w.isLegendary then
        { u with skills := (w.get_granted_skills.foldl
            (fun acc s => if s ∈ acc then acc else acc ++ [s]) u.skills) }
      else u
  | none => u

/-- Sum of `effect_value.get("value", 0)` over a legendary weapon's
effects of one kind (0 for a plain or absent weapon). -/
def legendaryValueSum (w? : Option Weapon) (kd : ItemEffectKind) : Int :=
  match w? with
  | some w =>
      if w.isLegendary then
        w.effects.foldl (fun acc e => if e.kind = kd then acc + e.value else acc) 0
      else 0
  | none => 0

/-- EnhancedCombatSystem.calculate_hit_chance (support_system None). -/
def eCalculate_hit_chance (a d : Combatant) (m : GameMap) : Int :=
  let hc := calculate_hit_chance a d m
  let hc := hc + legendaryValueSum a.equippedWeapon .hitBoost
  max 0 (min 100 hc)

/-- EnhancedCombatSystem.calculate_damage (support_system None). -/
def eCalculate_damage (a d : Combatant) (m : GameMap) : Int :=
  let dmg := calculate_damage a d m
  let dmg := dmg + legendaryValueSum a.equippedWeapon .damageBoost
  let dmg := dmg - legendaryValueSum d.equippedWeapon .damageReduce
  max 0 dmg

/-- EnhancedCombatSystem.calculate_crit_chance (support_system None). -/
def eCalculate_crit_chance (a d : Combatant) : Int :=
  let cc := calculate_crit_chance a d
  let cc := cc + legendaryValueSum a.equippedWeapon .criticalBoost
  max 0 (min 100 cc)

/-- The legendary multi-attack merge: a special_attack weapon effect with
an "attacks" payload overrides when no skill set multi-attack or it has a
larger hit count. -/
def legendaryMultiScan (w? : Option Weapon) (acc : Bool × Nat × Frac) : Bool × Nat × Frac :=
  match w? with
  | some w =>
      if w.isLegendary then
        w.effects.foldl (fun acc e =>
          if e.kind = .specialAttack then
            match e.dict.attacks with
            | some n =>
                if !acc.1 || decide (n > acc.2.1) then (true, n, e.dict.dmgMult.getD ⟨1, 1⟩)
                else acc
            | none => acc
          else acc) acc
      else acc
  | none => acc

/-- The legendary heal scan after a landed strike ("heal_ratio" weapon
effects heal the striker by a ratio of the total damage). -/
def legendaryHealScan (w? : Option Weapon) (total : Int) (u : Combatant) : Combatant :=
  match w? with
  | some w =>
      if w.isLegendary then
        w.effects.foldl (fun acc e =>
          if e.kind = .heal then
            match e.dict.healFrac with
            | some f => { acc with currentHp := min acc.maxHp (acc.currentHp + truncMul total f) }
            | none => acc
          else acc) u
      else u
  | none => u

/-- EnhancedCombatSystem.perform_attack (support_system None). -/
def ePerform_attack (a b : Combatant) (m : GameMap) (rng : Nat → Nat) (k : Nat) : AttackOut :=
  let cd0 : CombatData := { isAttacker := true }
  -- the equipped legendary weapon's granted skills are added to the
  -- attacker's roster ("一時的にスキルを追加" in the source)
  let a0 := grantWeaponSkills a
  let (a1, cd1, k1) := a0.activate_skills .onAttack cd0 rng k
  let (b1, cd2, k2) := b.activate_skills .onDefend cd1 rng k1
  let hitChance := eCalculate_hit_chance a1 b1 m
  let damage := eCalculate_damage a1 b1 m
  let critChance := eCalculate_crit_chance a1 b1
  let hit := decide ((rng k2 : Int) ≤ hitChance)
  let crit := hit && decide ((rng (k2 + 1) : Int) ≤ critChance)
  let k3 := k2 + 2
  let cfg := legendaryMultiScan a1.equippedWeapon (multiScan a1.activeSkills)
  let (a2, b2, total) :=
    if hit then
      let (bHp, total) :=
        if cfg.1 then
          multiGo damage cfg.2.2 crit 0 cfg.2.1 b1.currentHp 0
        else
          let ad := if crit then damage * 3 else damage
          (max 0 (b1.currentHp - ad), ad)
      let b2 := { b1 with currentHp := bHp }
      let a2 := useWeapon (legendaryHealScan a1.equippedWeapon total (healScan a1.activeSkills total a1))
      (a2, b2, total)
    else (a1, b1, (0 : Int))
  let result : StrikeResult :=
    { hit := hit
      damage := if hit then total else 0
      critical := crit
      killed := b2.is_dead
      hitChance := hitChance
      critChance := critChance
      multiAttack := cfg.1
      attackCount := if cfg.1 && hit then cfg.2.1 else 1 }
  let (a3, cd3, k4) :=
    if hit && decide (total > 0) then
      a2.activate_skills .onDamage { cd2 with damageDealt := total } rng k3
    else (a2, cd2, k3)
  let (a4, _, k5) :=
    if b2.is_dead then
      a3.activate_skills .onKill { cd3 with targetKilled := true } rng k4
    else (a3, cd3, k4)
  ⟨result, a4, b2, k5, damage⟩

/-- A legendary special_attack effect whose dict payload sets "vantage". -/
def legendaryVantage (w? : Option Weapon) : Bool :=
  match w? with
  | some w =>
      w.isLegendary && w.effects.any (fun e => decide (e.kind = .specialAttack) && e.dict.vantage)
  | none => false

/-- A legendary effect of the given kind with a truthy effect_value
(counter_attack / follow_up guarantees). -/
def legendaryFlag (w? : Option Weapon) (kd : ItemEffectKind) : Bool :=
  match w? with
  | some w => w.isLegendary && w.effects.any (fun e => decide (e.kind = kd) && e.truthy)
  | none => false

/-- `temp_stat_modifiers[name] = temp_stat_modifiers.get(name, 0) + v`. -/
def bumpStat (l : List (StatName × Int)) (st : StatName) (v : Int) : List (StatName × Int) :=
  if l.any (fun p => decide (p.1 = st)) then
    l.map (fun p => if p.1 = st then (p.1, p.2 + v) else p)
  else l ++ [(st, v)]

/-- LegendaryWeapon.apply_effects: fold every stat_boost effect's "stats"
dict into the unit's temp_stat_modifiers. -/
def applyWeaponEffects (u : Combatant) : Combatant :=
  match u.equippedWeapon with
  | some w =>
      if w.isLegendary then
        { u with tempStatModifiers := w.effects.foldl (fun acc e =>
            if e.kind = .statBoost then
              e.statBoosts.foldl (fun acc p => bumpStat acc p.1 p.2) acc
            else acc) u.tempStatModifiers }
      else u
  | none => u

/-- LegendaryWeapon.remove_effects: reset temp_stat_modifiers to empty. -/
def removeWeaponEffects (u : Combatant) : Combatant :=
  match u.equippedWeapon with
  | some w => if w.isLegendary then { u with tempStatModifiers := [] } else u
  | none => u

/-- The terminal block of EnhancedCombatSystem.perform_combat: like
`finish_combat` but with the legendary weapon effects removed after the
POST_COMBAT passes (the support-history recording is skipped with
support_system None). -/
def eFinish_combat (swap : Bool) (aRes dRes : List StrikeResult)
    (aU dU : Combatant) (aTk dTk : Bool) (rng : Nat → Nat) (k : Nat)
    (trace : List CombatEvent) (cInfo : Option CounterInfo)
    (fInfo : Option FollowInfo) : CombatOutcome :=
  let aR := if swap then dRes else aRes
  let dR := if swap then aRes else dRes
  let aData : CombatData :=
    { isAttacker := true, damageDealt := sumDamage aR,
      damageReceived := sumDamage dR, targetKilled := aTk }
  let dData : CombatData :=
    { isAttacker := false, damageDealt := sumDamage dR,
      damageReceived := sumDamage aR, targetKilled := dTk }
  let (aU1, _, k1) := aU.activate_skills .postCombat aData rng k
  let (dU1, _, _) := dU.activate_skills .postCombat dData rng k1
  let aU2 := removeWeaponEffects aU1
  let dU2 := removeWeaponEffects dU1
  { attackerResults := aR
    defenderResults := dR
    attackerUnit := aU2.deactivate_skills
    defenderUnit := dU2.deactivate_skills
    activatedAttacker := aU2.activeSkills.map (fun s => s.name)
    activatedDefender := dU2.activeSkills.map (fun s => s.name)
    swapRoles := swap
    trace := trace
    counterInfo := cInfo
    followInfo := fInfo }

/-- The body of EnhancedCombatSystem.perform_combat from the initiating
strike onward (support_system None). -/
def ePerform_combat_core (swap : Bool) (aU0 dU0 : Combatant) (m : GameMap)
    (rng : Nat → Nat) (k2 : Nat) : CombatOutcome :=
  let (r1, aU1, dU1, k3) :=
    if swap then
      let o := ePerform_attack dU0 aU0 m rng k2
      (o.result, o.defender, o.attacker, o.k)
    else
      let o := ePerform_attack aU0 dU0 m rng k2
      (o.result, o.attacker, o.defender, o.k)
  let e1 : CombatEvent :=
    { stage := .initiate, byOriginalAttacker := !swap,
      strikerHpBefore := (if swap then dU0 else aU0).currentHp,
      struckHpBefore := (if swap then aU0 else dU0).currentHp, result := r1 }
  let aRes1 := if swap then ([] : List StrikeResult) else [r1]
  let dRes1 := if swap then [r1] else ([] : List StrikeResult)
  let td1 := if swap then aU1 else dU1
  if td1.is_dead then
    eFinish_combat swap aRes1 dRes1 aU1 dU1 dU1.is_dead false rng k3 [e1] none none
  else
    let ta1 := if swap then dU1 else aU1
    let rangeOk := counterRangeCheck ta1 td1
    let guaranteed := hasActiveEffect td1.activeSkills .counterAttack
                        || legendaryFlag td1.equippedWeapon .counterAttack
    let canCounter := rangeOk || guaranteed
    let cInfo : Option CounterInfo := some ⟨rangeOk, guaranteed⟩
    let (aRes2, dRes2, aU2, dU2, k4, trace2) :=
      if canCounter then
        let (r2, aU2, dU2, k4) :=
          if swap then
            let o := ePerform_attack aU1 dU1 m rng k3
            (o.result, o.attacker, o.defender, o.k)
          else
            let o := ePerform_attack dU1 aU1 m rng k3
            (o.result, o.defender, o.attacker, o.k)
        let e2 : CombatEvent :=
          { stage := .counter, byOriginalAttacker := swap,
            strikerHpBefore := td1.currentHp,
            struckHpBefore := ta1.currentHp, result := r2 }
        let aRes2 := if swap then aRes1 ++ [r2] else aRes1
        let dRes2 := if swap then dRes1 else dRes1 ++ [r2]
        (aRes2, dRes2, aU2, dU2, k4, [e1, e2])
      else (aRes1, dRes1, aU1, dU1, k3, [e1])
    let ta2 := if swap then dU2 else aU2
    if canCounter && ta2.is_dead then
      eFinish_combat swap aRes2 dRes2 aU2 dU2 dU2.is_dead aU2.is_dead rng k4 trace2 cInfo none
    else
      let td2 := if swap then aU2 else dU2
      let gfA := hasActiveEffect ta2.activeSkills .followUp
                   || legendaryFlag ta2.equippedWeapon .followUp
      let gfD := hasActiveEffect td2.activeSkills .followUp
                   || legendaryFlag td2.equippedWeapon .followUp
      let aCanDouble := ta2.can_double_attack td2
      let dCanDouble := td2.can_double_attack ta2
      let fInfo : Option FollowInfo := some ⟨aCanDouble, gfA, dCanDouble, gfD, canCounter⟩
      if aCanDouble || gfA then
        let (r3, aU3, dU3, k5) :=
          if swap then
            let o := ePerform_attack dU2 aU2 m rng k4
            (o.result, o.defender, o.attacker, o.k)
          else
            let o := ePerform_attack aU2 dU2 m rng k4
            (o.result, o.attacker, o.defender, o.k)
        let e3 : CombatEvent :=
          { stage := .followUp, byOriginalAttacker := !swap,
            strikerHpBefore := ta2.currentHp,
            struckHpBefore := td2.currentHp, result := r3 }
        let aRes3 := if swap then aRes2 else aRes2 ++ [r3]
        let dRes3 := if swap then dRes2 ++ [r3] else dRes2
        let td3 := if swap then aU3 else dU3
        if td3.is_dead then
          eFinish_combat swap aRes3 dRes3 aU3 dU3 dU3.is_dead false rng k5 (trace2 ++ [e3]) cInfo fInfo
        else
          eFinish_combat swap aRes3 dRes3 aU3 dU3 dU3.is_dead aU3.is_dead rng k5 (trace2 ++ [e3]) cInfo fInfo
      else if canCounter && (dCanDouble || gfD) then
        let (r3, aU3, dU3, k5) :=
          if swap then
            let o := ePerform_attack aU2 dU2 m rng k4
            (o.result, o.attacker, o.defender, o.k)
          else
            let o := ePerform_attack dU2 aU2 m rng k4
            (o.result, o.defender, o.attacker, o.k)
        let e3 : CombatEvent :=
          { stage := .followUp, byOriginalAttacker := swap,
            strikerHpBefore := td2.currentHp,
            struckHpBefore := ta2.currentHp, result := r3 }
        let aRes3 := if swap then aRes2 ++ [r3] else aRes2
        let dRes3 := if swap then dRes2 else dRes2 ++ [r3]
        let ta3 := if swap then dU3 else aU3
        if ta3.is_dead then
          eFinish_combat swap aRes3 dRes3 aU3 dU3 dU3.is_dead aU3.is_dead rng k5 (trace2 ++ [e3]) cInfo fInfo
        else
          eFinish_combat swap aRes3 dRes3 aU3 dU3 dU3.is_dead aU3.is_dead rng k5 (trace2 ++ [e3]) cInfo fInfo
      else
        eFinish_combat swap aRes2 dRes2 aU2 dU2 dU2.is_dead aU2.is_dead rng k4 trace2 cInfo fInfo

/-- EnhancedCombatSystem.perform_combat (support_system None): the
vantage scans (skills and legendary weapon effects), the role-swap
decision, the PRE_COMBAT activation passes and the legendary
apply_effects calls, then the exchange body. -/
def ePerform_combat (attacker defender : Combatant) (m : GameMap) (rng : Nat → Nat) : CombatOutcome :=
  let preA : CombatData := { isAttacker := true }
  let preD : CombatData := { isAttacker := false }
  let aHasV := hasVantage attacker preA rng 0 || legendaryVantage attacker.equippedWeapon
  let dHasV := hasVantage defender preD rng 0 || legendaryVantage defender.equippedWeapon
  let swap := dHasV && !aHasV
  let (aU0, _, k1) := attacker.activate_skills .preCombat preA rng 0
  let (dU0, _, k2) := defender.activate_skills .preCombat preD rng k1
  let aU1 := applyWeaponEffects aU0
  let dU1 := applyWeaponEffects dU0
  ePerform_combat_core swap aU1 dU1 m rng k2

/-!
### Well-formedness of skill payloads

The hp-monotonicity lemmas below hold on the payload regime the game data
lives in: heal amounts are nonnegative and the fractional payloads
(damage multiplier, heal ratio) are nonnegative fractions with positive
denominators.
-/

/-- A fraction payload with nonnegative numerator and positive
denominator. -/
def Frac.wfb (f : Frac) : Bool := decide (0 ≤ f.num) && decide (0 < f.den)

/-- Nonnegative heal payloads (for the shapes whose `int(...)` conversion
succeeds; the remaining shapes contribute 0 in the model). -/
def healValOK : EffVal → Bool
  | .intv n => decide (0 ≤ n)
  | .floatv f => f.wfb
  | _ => true

/-- Payload well-formedness of one skill. -/
def Skill.wfb (s : Skill) : Bool :=
  (if s.effectType = .heal then healValOK s.effVal else true) &&
  (match s.effVal with
   | .dictv d =>
       (match d.dmgMult with | some f => f.wfb | none => true) &&
       (match d.healFrac with | some f => f.wfb | none => true)
   | _ => true)

/-- Combatant well-formedness: hp within [0, max hp] and all skill
payloads well-formed. -/
def Combatant.wfb (u : Combatant) : Bool :=
  decide (0 ≤ u.currentHp) && decide (u.currentHp ≤ u.maxHp) &&
  u.skills.all Skill.wfb && u.activeSkills.all Skill.wfb

lemma truncMul_nonneg (x : Int) (f : Frac) (hx : 0 ≤ x) (hf : f.wfb = true) :
    0 ≤ truncMul x f := by
  simp only [Frac.wfb, Bool.and_eq_true, decide_eq_true_eq] at hf
  exact Int.tdiv_nonneg (mul_nonneg hx hf.1) hf.2.le

lemma healAmount_nonneg (u : Combatant) (v : EffVal) (hm : 0 ≤ u.maxHp)
    (hv : healValOK v = true) : 0 ≤ healAmount u v := by
  cases v with
  | intv n => simpa [healValOK, healAmount] using hv
  | floatv f =>
      simp only [healValOK] at hv
      simp only [healAmount]
      split
      · exact truncMul_nonneg _ _ hm hv
      · simp only [Frac.wfb, Bool.and_eq_true, decide_eq_true_eq] at hv
        exact Int.tdiv_nonneg hv.1 hv.2.le
  | boolv b => cases b <;> simp [healAmount]
  | pairv st n => simp [healAmount]
  | dictv d => simp [healAmount]

lemma Skill.wfb_flags (s : Skill) (n : Int) (b : Bool) :
    ({ s with remainingDuration := n, isActive := b } : Skill).wfb = s.wfb := rfl

lemma Skill.wfb_duration (s : Skill) (n : Int) :
    ({ s with remainingDuration := n } : Skill).wfb = s.wfb := rfl

lemma Skill.wfb_active (s : Skill) (b : Bool) :
    ({ s with isActive := b } : Skill).wfb = s.wfb := rfl

lemma apply_effect_skill_wfb (s : Skill) (u : Combatant) (cd : CombatData) :
    ((s.apply_effect u cd).1).wfb = s.wfb := by
  unfold Skill.apply_effect
  split
  split
  · dsimp only
    split <;> rfl
  · rfl

/-- apply_effect changes the unit only when the effect is HEAL. -/
lemma apply_effect_unit_ne (s : Skill) (u : Combatant) (cd : CombatData)
    (h : ¬ s.effectType = .heal) : (s.apply_effect u cd).2.1 = u := by
  unfold Skill.apply_effect
  cases hE : s.effectType <;> simp_all <;> split <;> rfl

/-- The HEAL arm of apply_effect caps at max hp. -/
lemma apply_effect_unit_heal (s : Skill) (u : Combatant) (cd : CombatData)
    (h : s.effectType = .heal) :
    (s.apply_effect u cd).2.1
      = { u with currentHp := min u.maxHp (u.currentHp + healAmount u s.effVal) } := by
  unfold Skill.apply_effect
  simp [h]

/-- apply_effect preserves the combat-data fields that the trigger checks
read (`is_attacker`, `damage_received`, `target_killed`). -/
lemma apply_effect_cd (s : Skill) (u : Combatant) (cd : CombatData) :
    ((s.apply_effect u cd).2.2).isAttacker = cd.isAttacker ∧
    ((s.apply_effect u cd).2.2).damageReceived = cd.damageReceived ∧
    ((s.apply_effect u cd).2.2).targetKilled = cd.targetKilled := by
  unfold Skill.apply_effect
  cases hE : s.effectType <;> simp_all <;> split <;> simp

/-- The unit returned by apply_effect differs from the input at most in
`currentHp`. -/
lemma apply_effect_unit_fields (s : Skill) (u : Combatant) (cd : CombatData) :
    (s.apply_effect u cd).2.1
      = { u with currentHp := ((s.apply_effect u cd).2.1).currentHp } := by
  by_cases h : s.effectType = .heal
  · rw [apply_effect_unit_heal s u cd h]
  · rw [apply_effect_unit_ne s u cd h]

/-- Bounds of the HEAL update under well-formed payloads. -/
lemma apply_effect_hp (s : Skill) (u : Combatant) (cd : CombatData)
    (hs : s.wfb = true) (h0 : 0 ≤ u.currentHp) (h1 : u.currentHp ≤ u.maxHp) :
    0 ≤ ((s.apply_effect u cd).2.1).currentHp ∧
    u.currentHp ≤ ((s.apply_effect u cd).2.1).currentHp ∧
    ((s.apply_effect u cd).2.1).currentHp ≤ u.maxHp := by
  by_cases h : s.effectType = .heal
  · rw [apply_effect_unit_heal s u cd h]
    have hheal : healValOK s.effVal = true := by
      unfold Skill.wfb at hs
      simp only [h, if_pos, Bool.and_eq_true] at hs
      exact hs.1
    have hnn : 0 ≤ healAmount u s.effVal :=
      healAmount_nonneg u s.effVal (h0.trans h1) hheal
    refine ⟨?_, ?_, ?_⟩
    · exact le_min (h0.trans h1) (by omega)
    · exact le_min h1 (by omega)
    · exact min_le_left _ _
  · rw [apply_effect_unit_ne s u cd h]
    exact ⟨h0, le_refl _, h1⟩

lemma apply_effect_weapon (s : Skill) (u : Combatant) (cd : CombatData) :
    (s.apply_effect u cd).2.1.equippedWeapon = u.equippedWeapon := by
  rw [apply_effect_unit_fields]

lemma apply_effect_maxHp (s : Skill) (u : Combatant) (cd : CombatData) :
    (s.apply_effect u cd).2.1.maxHp = u.maxHp := by
  rw [apply_effect_unit_fields]

lemma apply_effect_skillsField (s : Skill) (u : Combatant) (cd : CombatData) :
    (s.apply_effect u cd).2.1.skills = u.skills := by
  rw [apply_effect_unit_fields]

lemma apply_effect_activeField (s : Skill) (u : Combatant) (cd : CombatData) :
    (s.apply_effect u cd).2.1.activeSkills = u.activeSkills := by
  rw [apply_effect_unit_fields]

/-- The combined invariants of the activation loop over a skill list:
fields other than hp / active skills are untouched, the trigger-relevant
combat-data fields are preserved, and under well-formed payloads the hp
stays within [previous hp, max hp] and every produced skill stays
well-formed. -/
lemma activateGo_main (t : TriggerType) (rng : Nat → Nat) (l : List Skill) :
    ∀ (u : Combatant) (cd : CombatData) (k : Nat),
      (activateGo t rng l u cd k).2.1.equippedWeapon = u.equippedWeapon ∧
      (activateGo t rng l u cd k).2.1.maxHp = u.maxHp ∧
      (activateGo t rng l u cd k).2.1.skills = u.skills ∧
      (activateGo t rng l u cd k).2.2.1.isAttacker = cd.isAttacker ∧
      (activateGo t rng l u cd k).2.2.1.damageReceived = cd.damageReceived ∧
      (activateGo t rng l u cd k).2.2.1.targetKilled = cd.targetKilled ∧
      ((∀ s ∈ l, s.wfb = true) → 0 ≤ u.currentHp → u.currentHp ≤ u.maxHp →
        0 ≤ (activateGo t rng l u cd k).2.1.currentHp ∧
        u.currentHp ≤ (activateGo t rng l u cd k).2.1.currentHp ∧
        (activateGo t rng l u cd k).2.1.currentHp ≤ u.maxHp) ∧
      ((∀ s ∈ l, s.wfb = true) → ∀ s' ∈ (activateGo t rng l u cd k).1, s'.wfb = true) ∧
      ((∀ s ∈ l, s.wfb = true) → (∀ s ∈ u.activeSkills, s.wfb = true) →
        ∀ s' ∈ (activateGo t rng l u cd k).2.1.activeSkills, s'.wfb = true) := by
  induction l with
  | nil =>
      intro u cd k
      exact ⟨rfl, rfl, rfl, rfl, rfl, rfl,
        fun _ h0 h1 => ⟨h0, le_refl _, h1⟩,
        fun _ s' hm => absurd hm (by simp [activateGo]),
        fun _ hact s' hm => hact s' hm⟩
  | cons s rest ih =>
      intro u cd k
      by_cases hT : s.triggerType = t
      · by_cases hC : (s.check_trigger u (some cd) rng k).1 = true
        · -- triggered: mark active, apply the effect, recurse
          have hstep : activateGo t rng (s :: rest) u cd k =
              (((({ s with isActive := true } : Skill).apply_effect u cd).1 ::
                  (activateGo t rng rest
                    { (({ s with isActive := true } : Skill).apply_effect u cd).2.1 with
                        activeSkills :=
                          (({ s with isActive := true } : Skill).apply_effect u cd).2.1.activeSkills
                            ++ [(({ s with isActive := true } : Skill).apply_effect u cd).1] }
                    (({ s with isActive := true } : Skill).apply_effect u cd).2.2
                    (s.check_trigger u (some cd) rng k).2).1),
               (activateGo t rng rest
                    { (({ s with isActive := true } : Skill).apply_effect u cd).2.1 with
                        activeSkills :=
                          (({ s with isActive := true } : Skill).apply_effect u cd).2.1.activeSkills
                            ++ [(({ s with isActive := true } : Skill).apply_effect u cd).1] }
                    (({ s with isActive := true } : Skill).apply_effect u cd).2.2
                    (s.check_trigger u (some cd) rng k).2).2) := by
            simp [activateGo, hT, hC]
          set s1 : Skill := { s with isActive := true } with hs1
          set P := s1.apply_effect u cd with hP
          set u3 : Combatant :=
            { P.2.1 with activeSkills := P.2.1.activeSkills ++ [P.1] } with hu3
          obtain ⟨iW, iM, iS, iA, iR, iK, iHp, iL, iAct⟩ :=
            ih u3 P.2.2 (s.check_trigger u (some cd) rng k).2
          have hu3w : u3.equippedWeapon = u.equippedWeapon := by
            simp [hu3, hP, apply_effect_weapon]
          have hu3m : u3.maxHp = u.maxHp := by
            simp [hu3, hP, apply_effect_maxHp]
          have hu3s : u3.skills = u.skills := by
            simp [hu3, hP, apply_effect_skillsField]
          have hu3hp : u3.currentHp = P.2.1.currentHp := rfl
          have hcd := apply_effect_cd s1 u cd
          have hs1w : s1.wfb = s.wfb := Skill.wfb_active s true
          have hPw : P.1.wfb = s.wfb := by
            rw [hP, apply_effect_skill_wfb, hs1w]
          rw [hstep]
          refine ⟨?_, ?_, ?_, ?_, ?_, ?_, ?_, ?_, ?_⟩
          · exact iW.trans hu3w
          · exact iM.trans hu3m
          · exact iS.trans hu3s
          · exact iA.trans hcd.1
          · exact iR.trans hcd.2.1
          · exact iK.trans hcd.2.2
          · intro hl h0 h1
            have hsw : s.wfb = true := hl s (List.mem_cons_self s rest)
            have hb := apply_effect_hp s1 u cd (by rw [hs1w]; exact hsw) h0 h1
            have hrest : ∀ s' ∈ rest, s'.wfb = true :=
              fun s' hm => hl s' (List.mem_cons_of_mem s hm)
            have := iHp hrest (by rw [hu3hp]; exact hb.1)
              (by rw [hu3hp, hu3m]; exact hb.2.2)
            refine ⟨this.1, le_trans hb.2.1 ?_, by rw [← hu3m]; exact this.2.2⟩
            rw [← hu3hp]
            exact this.2.1
          · intro hl s' hm
            have hrest : ∀ s'' ∈ rest, s''.wfb = true :=
              fun s'' h => hl s'' (List.mem_cons_of_mem s h)
            rcases List.mem_cons.mp hm with h | h
            · rw [h, hPw]; exact hl s (List.mem_cons_self s rest)
            · exact iL hrest s' h
          · intro hl hact s' hm
            have hrest : ∀ s'' ∈ rest, s''.wfb = true :=
              fun s'' h => hl s'' (List.mem_cons_of_mem s h)
            refine iAct hrest ?_ s' hm
            intro s'' hm''
            have : s'' ∈ P.2.1.activeSkills ++ [P.1] := by
              simpa [hu3] using hm''
            rcases List.mem_append.mp this with h | h
            · rw [hP, apply_effect_activeField] at h
              exact hact s'' h
            · rw [List.mem_singleton.mp h, hPw]
              exact hl s (List.mem_cons_self s rest)
        · -- trigger checked but false: skip, with the advanced draw index
          have hstep : activateGo t rng (s :: rest) u cd k =
              ((s :: (activateGo t rng rest u cd (s.check_trigger u (some cd) rng k).2).1),
               (activateGo t rng rest u cd (s.check_trigger u (some cd) rng k).2).2) := by
            simp [activateGo, hT, hC]
          obtain ⟨iW, iM, iS, iA, iR, iK, iHp, iL, iAct⟩ :=
            ih u cd (s.check_trigger u (some cd) rng k).2
          rw [hstep]
          refine ⟨iW, iM, iS, iA, iR, iK, ?_, ?_, ?_⟩
          · intro hl h0 h1
            exact iHp (fun s' h => hl s' (List.mem_cons_of_mem s h)) h0 h1
          · intro hl s' hm
            rcases List.mem_cons.mp hm with h | h
            · rw [h]; exact hl s (List.mem_cons_self s rest)
            · exact iL (fun s'' h' => hl s'' (List.mem_cons_of_mem s h')) s' h
          · intro hl hact s' hm
            exact iAct (fun s'' h' => hl s'' (List.mem_cons_of_mem s h')) hact s' hm
      · -- trigger type does not match: skip without a draw
        have hstep : activateGo t rng (s :: rest) u cd k =
            ((s :: (activateGo t rng rest u cd k).1),
             (activateGo t rng rest u cd k).2) := by
          simp [activateGo, hT]
        obtain ⟨iW, iM, iS, iA, iR, iK, iHp, iL, iAct⟩ := ih u cd k
        rw [hstep]
        refine ⟨iW, iM, iS, iA, iR, iK, ?_, ?_, ?_⟩
        · intro hl h0 h1
          exact iHp (fun s' h => hl s' (List.mem_cons_of_mem s h)) h0 h1
        · intro hl s' hm
          rcases List.mem_cons.mp hm with h | h
          · rw [h]; exact hl s (List.mem_cons_self s rest)
          · exact iL (fun s'' h' => hl s'' (List.mem_cons_of_mem s h')) s' h
        · intro hl hact s' hm
          exact iAct (fun s'' h' => hl s'' (List.mem_cons_of_mem s h')) hact s' hm

/-- The invariants of Unit.activate_skills: equipped weapon and max hp
untouched, trigger-relevant combat-data fields preserved, and under
well-formedness the hp is monotone and well-formedness is preserved. -/
lemma activate_skills_main (u : Combatant) (t : TriggerType) (cd : CombatData)
    (rng : Nat → Nat) (k : Nat) :
    (u.activate_skills t cd rng k).1.equippedWeapon = u.equippedWeapon ∧
    (u.activate_skills t cd rng k).1.maxHp = u.maxHp ∧
    (u.activate_skills t cd rng k).2.1.isAttacker = cd.isAttacker ∧
    (u.activate_skills t cd rng k).2.1.damageReceived = cd.damageReceived ∧
    (u.activate_skills t cd rng k).2.1.targetKilled = cd.targetKilled ∧
    (u.wfb = true →
      u.currentHp ≤ (u.activate_skills t cd rng k).1.currentHp ∧
      (u.activate_skills t cd rng k).1.wfb = true) := by
  obtain ⟨iW, iM, _, iA, iR, iK, iHp, iL, iAct⟩ := activateGo_main t rng u.skills u cd k
  unfold Combatant.activate_skills
  refine ⟨iW, iM, iA, iR, iK, ?_⟩
  intro hw
  have hw' := hw
  simp only [Combatant.wfb, Bool.and_eq_true, decide_eq_true_eq, List.all_eq_true] at hw'
  obtain ⟨⟨⟨h0, h1⟩, hsk⟩, hac⟩ := hw'
  have hb := iHp hsk h0 h1
  refine ⟨hb.2.1, ?_⟩
  simp only [Combatant.wfb, Bool.and_eq_true, decide_eq_true_eq, List.all_eq_true]
  refine ⟨⟨⟨hb.1, ?_⟩, ?_⟩, ?_⟩
  · exact le_trans hb.2.2 (le_of_eq iM.symm)
  · exact fun s hm => iL hsk s hm
  · exact fun s hm => iAct hsk hac s hm

/-- Conditions under which an activation pass can trigger nothing: the
PRE_COMBAT / POST_COMBAT events (whose trigger checks always return
false), an ON_DEFEND pass with `is_attacker` set, an ON_DAMAGE pass with
no damage received, and an ON_KILL pass without a kill. -/
def passInert (t : TriggerType) (cd : CombatData) : Prop :=
  t = .preCombat ∨ t = .postCombat ∨ (t = .onDefend ∧ cd.isAttacker = true) ∨
    (t = .onDamage ∧ cd.damageReceived ≤ 0) ∨ (t = .onKill ∧ cd.targetKilled = false)

lemma check_trigger_inert (s : Skill) (u : Combatant) (cd : CombatData)
    (rng : Nat → Nat) (k : Nat) (h : passInert s.triggerType cd) :
    s.check_trigger u (some cd) rng k = (false, k) := by
  rcases h with h | h | ⟨h, h2⟩ | ⟨h, h2⟩ | ⟨h, h2⟩
  · simp [Skill.check_trigger, h]
  · simp [Skill.check_trigger, h]
  · simp [Skill.check_trigger, h, h2]
  · simp only [Skill.check_trigger, h]
    have : ¬ cd.damageReceived > 0 := by omega
    simp [this]
  · simp [Skill.check_trigger, h, h2]

lemma activateGo_inert (t : TriggerType) (rng : Nat → Nat) (l : List Skill) :
    ∀ (u : Combatant) (cd : CombatData) (k : Nat), passInert t cd →
      activateGo t rng l u cd k = (l, u, cd, k) := by
  induction l with
  | nil => intro u cd k _; rfl
  | cons s rest ih =>
      intro u cd k h
      by_cases hT : s.triggerType = t
      · have hck : s.check_trigger u (some cd) rng k = (false, k) :=
          check_trigger_inert s u cd rng k (hT ▸ h)
        simp [activateGo, hT, hck, ih u cd k h]
      · simp [activateGo, hT, ih u cd k h]

lemma activate_skills_inert (u : Combatant) (t : TriggerType) (cd : CombatData)
    (rng : Nat → Nat) (k : Nat) (h : passInert t cd) :
    u.activate_skills t cd rng k = (u, cd, k) := by
  unfold Combatant.activate_skills
  rw [activateGo_inert t rng u.skills u cd k h]

lemma multiStep_wfb (acc : Bool × Nat × Frac) (s : Skill)
    (hs : s.wfb = true) (hacc : acc.2.2.wfb = true) :
    (multiStep acc s).2.2.wfb = true := by
  unfold multiStep
  by_cases hE : s.effectType = .specialAttack
  · rw [if_pos hE]
    cases hv : s.effVal with
    | dictv d =>
        cases ha : d.attacks with
        | some n =>
            simp only [ha]
            cases hf : d.dmgMult with
            | some f =>
                simp only [hf, Option.getD_some]
                have hs' := hs
                simp only [Skill.wfb, hv, hf, Bool.and_eq_true] at hs'
                exact hs'.2.1
            | none => simp [hf, Frac.wfb]
        | none => simp only [ha]; exact hacc
    | intv n => exact hacc
    | floatv f => exact hacc
    | boolv b => exact hacc
    | pairv st n => exact hacc
  · rw [if_neg hE]; exact hacc

lemma multiScan_wfb (l : List Skill) (hl : ∀ s ∈ l, s.wfb = true) :
    (multiScan l).2.2.wfb = true := by
  unfold multiScan
  suffices h : ∀ acc : Bool × Nat × Frac, acc.2.2.wfb = true →
      (l.foldl multiStep acc).2.2.wfb = true by
    exact h (false, 1, ⟨1, 1⟩) (by decide)
  induction l with
  | nil => intro acc hacc; simpa using hacc
  | cons s rest ih =>
      intro acc hacc
      simp only [List.foldl_cons]
      exact ih (fun s' hm => hl s' (List.mem_cons_of_mem s hm)) _
        (multiStep_wfb acc s (hl s (List.mem_cons_self s rest)) hacc)

/-- The multi-hit loop: the final hp is the initial hp minus the total
damage, clamped at 0, and the accumulated total only grows. -/
lemma multiGo_spec (damage : Int) (mult : Frac) (crit : Bool)
    (hd : 0 ≤ damage) (hm : mult.wfb = true) :
    ∀ (rem i : Nat) (hp total : Int), 0 ≤ hp →
      (multiGo damage mult crit i rem hp total).1
          = max 0 (hp - ((multiGo damage mult crit i rem hp total).2 - total)) ∧
      total ≤ (multiGo damage mult crit i rem hp total).2 := by
  have hd0 : 0 ≤ truncMul damage mult := truncMul_nonneg _ _ hd hm
  intro rem
  induction rem with
  | zero =>
      intro i hp total h0
      constructor
      · simp [multiGo]; omega
      · simp [multiGo]
  | succ rem ih =>
      intro i hp total h0
      simp only [multiGo]
      set d0 := truncMul damage mult with hd0def
      set d := if i = 0 ∧ crit then d0 * 3 else d0 with hddef
      have hdn : 0 ≤ d := by
        rw [hddef]; split <;> omega
      by_cases hstop : max 0 (hp - d) ≤ 0
      · simp only [if_pos hstop]
        constructor
        · omega
        · omega
      · simp only [if_neg hstop]
        have h0' : (0 : Int) ≤ max 0 (hp - d) := le_max_left _ _
        obtain ⟨ih1, ih2⟩ := ih (i + 1) (max 0 (hp - d)) (total + d) h0'
        constructor
        · rw [ih1]
          have hmax : max 0 (hp - d) = hp - d := by omega
          rw [hmax]
          congr 1
          omega
        · omega

lemma healStep_fields (total : Int) (acc : Combatant) (s : Skill) :
    healStep total acc s = { acc with currentHp := (healStep total acc s).currentHp } := by
  unfold healStep
  by_cases hE : s.effectType = .heal
  · rw [if_pos hE]
    cases hv : s.effVal with
    | dictv d =>
        cases hf : d.healFrac with
        | some f => simp only [hf]
        | none => simp only [hf]
    | intv n => rfl
    | floatv f => rfl
    | boolv b => rfl
    | pairv st n => rfl
  · rw [if_neg hE]

lemma healStep_bounds (total : Int) (acc : Combatant) (s : Skill)
    (hs : s.wfb = true) (ht : 0 ≤ total)
    (h0 : 0 ≤ acc.currentHp) (h1 : acc.currentHp ≤ acc.maxHp) :
    0 ≤ (healStep total acc s).currentHp ∧
    acc.currentHp ≤ (healStep total acc s).currentHp ∧
    (healStep total acc s).currentHp ≤ acc.maxHp := by
  unfold healStep
  by_cases hE : s.effectType = .heal
  · rw [if_pos hE]
    cases hv : s.effVal with
    | dictv d =>
        cases hf : d.healFrac with
        | some f =>
            have hfw : f.wfb = true := by
              have hs' := hs
              simp only [Skill.wfb, hv, hf, Bool.and_eq_true] at hs'
              exact hs'.2.2
            have hnn : 0 ≤ truncMul total f := truncMul_nonneg _ _ ht hfw
            simp only [hf]
            refine ⟨?_, ?_, ?_⟩ <;> · dsimp only; omega
        | none => simp only [hf]; exact ⟨h0, le_refl _, h1⟩
    | intv n => exact ⟨h0, le_refl _, h1⟩
    | floatv f => exact ⟨h0, le_refl _, h1⟩
    | boolv b => exact ⟨h0, le_refl _, h1⟩
    | pairv st n => exact ⟨h0, le_refl _, h1⟩
  · rw [if_neg hE]
    exact ⟨h0, le_refl _, h1⟩

/-- The heal scan changes only the hp, and under well-formed payloads
keeps it within [previous hp, max hp]. -/
lemma healScan_main (l : List Skill) (total : Int) :
    ∀ (u : Combatant),
      healScan l total u = { u with currentHp := (healScan l total u).currentHp } ∧
      ((∀ s ∈ l, s.wfb = true) → 0 ≤ total → 0 ≤ u.currentHp → u.currentHp ≤ u.maxHp →
        0 ≤ (healScan l total u).currentHp ∧
        u.currentHp ≤ (healScan l total u).currentHp ∧
        (healScan l total u).currentHp ≤ u.maxHp) := by
  induction l with
  | nil =>
      intro u
      exact ⟨rfl, fun _ _ h0 h1 => ⟨h0, le_refl _, h1⟩⟩
  | cons s rest ih =>
      intro u
      have hstep : healScan (s :: rest) total u = healScan rest total (healStep total u s) := rfl
      obtain ⟨ih1, ih2⟩ := ih (healStep total u s)
      rw [hstep]
      constructor
      · rw [ih1]
        rw [healStep_fields total u s]
      · intro hl ht h0 h1
        have hb := healStep_bounds total u s (hl s (List.mem_cons_self s rest)) ht h0 h1
        have hm : (healStep total u s).maxHp = u.maxHp := by
          rw [healStep_fields total u s]
        obtain ⟨j0, j1, j2⟩ := ih2 (fun s' hm' => hl s' (List.mem_cons_of_mem s hm')) ht hb.1
          (by rw [hm]; exact hb.2.2)
        exact ⟨j0, le_trans hb.2.1 j1, by rw [← hm]; exact j2⟩

lemma useWeapon_fields (u : Combatant) :
    (useWeapon u).currentHp = u.currentHp ∧ (useWeapon u).maxHp = u.maxHp ∧
    (useWeapon u).skills = u.skills ∧ (useWeapon u).activeSkills = u.activeSkills := by
  unfold useWeapon
  exact ⟨rfl, rfl, rfl, rfl⟩

lemma useWeapon_wfb (u : Combatant) : (useWeapon u).wfb = u.wfb := rfl

lemma calculate_damage_nonneg (a d : Combatant) (m : GameMap) :
    0 ≤ calculate_damage a d m := by
  unfold calculate_damage
  exact le_max_left _ _

lemma wfb_parts (u : Combatant) (h : u.wfb = true) :
    0 ≤ u.currentHp ∧ u.currentHp ≤ u.maxHp ∧
    (∀ s ∈ u.skills, s.wfb = true) ∧ (∀ s ∈ u.activeSkills, s.wfb = true) := by
  simp only [Combatant.wfb, Bool.and_eq_true, decide_eq_true_eq, List.all_eq_true] at h
  exact ⟨h.1.1.1, h.1.1.2, h.1.2, h.2⟩

/-- perform_attack on the struck side: the defender comes back with its
hp reduced by the recorded damage and clamped at 0; the recorded damage
is nonnegative, it is 0 on a miss, and on a plain (non-multi) landed
strike it is the computed damage, tripled on a critical. -/
lemma perform_attack_result (a b : Combatant) (m : GameMap) (rng : Nat → Nat) (k : Nat)
    (hwa : a.wfb = true) (hb0 : 0 ≤ b.currentHp) :
    (perform_attack a b m rng k).defender
        = { b with currentHp := max 0 (b.currentHp - (perform_attack a b m rng k).result.damage) } ∧
    0 ≤ (perform_attack a b m rng k).result.damage ∧
    ((perform_attack a b m rng k).result.hit = false →
      (perform_attack a b m rng k).result.damage = 0) ∧
    ((perform_attack a b m rng k).result.hit = true →
      (perform_attack a b m rng k).result.multiAttack = false →
      (perform_attack a b m rng k).result.damage
        = if (perform_attack a b m rng k).result.critical = true
          then (perform_attack a b m rng k).baseDamage * 3
          else (perform_attack a b m rng k).baseDamage) := by
  have hA := activate_skills_main a .onAttack { isAttacker := true } rng k
  have hIn := activate_skills_inert b .onDefend
    (a.activate_skills .onAttack { isAttacker := true } rng k).2.1 rng
    (a.activate_skills .onAttack { isAttacker := true } rng k).2.2
    (Or.inr (Or.inr (Or.inl ⟨rfl, hA.2.2.1⟩)))
  have ha1w : (a.activate_skills .onAttack { isAttacker := true } rng k).1.wfb = true :=
    (hA.2.2.2.2.2 hwa).2
  have hact := (wfb_parts _ ha1w).2.2.2
  have hmw := multiScan_wfb _ hact
  have hdn := calculate_damage_nonneg
    (a.activate_skills .onAttack { isAttacker := true } rng k).1 b m
  unfold perform_attack
  dsimp only
  rw [hIn]
  dsimp only
  set A := a.activate_skills .onAttack { isAttacker := true } rng k with hAdef
  by_cases hHit : (rng A.2.2 : Int) ≤ calculate_hit_chance A.1 b m
  · simp only [hHit, decide_True, Bool.true_and, if_true]
    by_cases hMulti : (multiScan A.1.activeSkills).1 = true
    · simp only [hMulti, if_true]
      obtain ⟨hsp, htot⟩ := multiGo_spec (calculate_damage A.1 b m)
        (multiScan A.1.activeSkills).2.2
        (decide ((rng (A.2.2 + 1) : Int) ≤ calculate_crit_chance A.1 b))
        hdn hmw (multiScan A.1.activeSkills).2.1 0 b.currentHp 0 hb0
      refine ⟨?_, htot, fun h => absurd h (by simp), fun _ h => absurd h (by simp)⟩
      have hsp' : (multiGo (calculate_damage A.1 b m) (multiScan A.1.activeSkills).2.2
            (decide ((rng (A.2.2 + 1) : Int) ≤ calculate_crit_chance A.1 b)) 0
            (multiScan A.1.activeSkills).2.1 b.currentHp 0).1
          = max 0 (b.currentHp - (multiGo (calculate_damage A.1 b m)
              (multiScan A.1.activeSkills).2.2
              (decide ((rng (A.2.2 + 1) : Int) ≤ calculate_crit_chance A.1 b)) 0
              (multiScan A.1.activeSkills).2.1 b.currentHp 0).2) := by
        rw [hsp]
        norm_num
      rw [hsp']
    · rw [Bool.not_eq_true] at hMulti
      simp only [hMulti, Bool.false_eq_true, if_false]
      refine ⟨trivial, ?_, fun h => absurd h (by simp), fun _ _ => trivial⟩
      split <;> omega
  · simp only [hHit, decide_False, Bool.false_and, Bool.false_eq_true, if_false]
    refine ⟨?_, le_refl _, fun _ => trivial, fun h => h.elim⟩
    have hz : max 0 (b.currentHp - 0) = b.currentHp := by omega
    rw [hz]

/-- The striker-side hp/wfb/weapon facts of the landed-strike update
(heal scan followed by the durability decrement). -/
lemma strike_update_facts (l : List Skill) (total : Int) (u : Combatant)
    (hw : u.wfb = true) (hl : ∀ s ∈ l, s.wfb = true) (ht : 0 ≤ total) :
    u.currentHp ≤ (useWeapon (healScan l total u)).currentHp ∧
    (useWeapon (healScan l total u)).wfb = true ∧
    (useWeapon (healScan l total u)).equippedWeapon
      = u.equippedWeapon.map (fun w => { w with durability := w.durability - 1 }) := by
  obtain ⟨h0, h1, hsk, hac⟩ := wfb_parts u hw
  obtain ⟨hshape, hbds⟩ := healScan_main l total u
  obtain ⟨j0, j1, j2⟩ := hbds hl ht h0 h1
  have hWsc : (healScan l total u).wfb = true := by
    rw [hshape]
    simp only [Combatant.wfb, Bool.and_eq_true, decide_eq_true_eq, List.all_eq_true]
    exact ⟨⟨⟨j0, j2⟩, hsk⟩, hac⟩
  refine ⟨?_, ?_, ?_⟩
  · rw [(useWeapon_fields (healScan l total u)).1]
    exact j1
  · rw [useWeapon_wfb]
    exact hWsc
  · show (useWeapon (healScan l total u)).equippedWeapon = _
    have : (healScan l total u).equippedWeapon = u.equippedWeapon := by
      rw [hshape]
    unfold useWeapon
    rw [this]

lemma map_dur_zero (o : Option Weapon) :
    o.map (fun w => { w with durability := w.durability - 0 }) = o := by
  cases o with
  | none => rfl
  | some w => simp

/-- An optional activation pass (run when the condition holds, skipped
otherwise) keeps hp monotone, preserves well-formedness and leaves the
equipped weapon untouched. -/
lemma branch_pass (u : Combatant) (t : TriggerType)
    (cd cd' : CombatData) (rng : Nat → Nat) (k k' : Nat) (c : Bool) :
    (if c = true then u.activate_skills t cd rng k else (u, cd', k')).1.equippedWeapon
      = u.equippedWeapon ∧
    (u.wfb = true →
      u.currentHp ≤ (if c = true then u.activate_skills t cd rng k else (u, cd', k')).1.currentHp ∧
      (if c = true then u.activate_skills t cd rng k else (u, cd', k')).1.wfb = true) := by
  split
  · have hM := activate_skills_main u t cd rng k
    exact ⟨hM.1, fun hw => ⟨(hM.2.2.2.2.2 hw).1, (hM.2.2.2.2.2 hw).2⟩⟩
  · exact ⟨rfl, fun hw => ⟨le_refl _, hw⟩⟩

/-- The two trailing activation passes of perform_attack (ON_DAMAGE when
damage was dealt, ON_KILL when the defender died): hp monotone,
well-formedness preserved, equipped weapon untouched. -/
lemma striker_two_pass (u : Combatant) (c1 c2 : Bool) (cdA cdB : CombatData)
    (rng : Nat → Nat) (k1 : Nat) :
    ((if c2 = true then
          (if c1 = true then u.activate_skills .onDamage cdA rng k1 else (u, cdB, k1)).1.activate_skills
            .onKill
            { (if c1 = true then u.activate_skills .onDamage cdA rng k1 else (u, cdB, k1)).2.1 with
                targetKilled := true }
            rng
            (if c1 = true then u.activate_skills .onDamage cdA rng k1 else (u, cdB, k1)).2.2
        else
          ((if c1 = true then u.activate_skills .onDamage cdA rng k1 else (u, cdB, k1)).1,
           (if c1 = true then u.activate_skills .onDamage cdA rng k1 else (u, cdB, k1)).2.1,
           (if c1 = true then u.activate_skills .onDamage cdA rng k1 else (u, cdB, k1)).2.2)).1).equippedWeapon
      = u.equippedWeapon ∧
    (u.wfb = true →
      u.currentHp ≤
        ((if c2 = true then
            (if c1 = true then u.activate_skills .onDamage cdA rng k1 else (u, cdB, k1)).1.activate_skills
              .onKill
              { (if c1 = true then u.activate_skills .onDamage cdA rng k1 else (u, cdB, k1)).2.1 with
                  targetKilled := true }
              rng
              (if c1 = true then u.activate_skills .onDamage cdA rng k1 else (u, cdB, k1)).2.2
          else
            ((if c1 = true then u.activate_skills .onDamage cdA rng k1 else (u, cdB, k1)).1,
             (if c1 = true then u.activate_skills .onDamage cdA rng k1 else (u, cdB, k1)).2.1,
             (if c1 = true then u.activate_skills .onDamage cdA rng k1 else (u, cdB, k1)).2.2)).1).currentHp ∧
      ((if c2 = true then
            (if c1 = true then u.activate_skills .onDamage cdA rng k1 else (u, cdB, k1)).1.activate_skills
              .onKill
              { (if c1 = true then u.activate_skills .onDamage cdA rng k1 else (u, cdB, k1)).2.1 with
                  targetKilled := true }
              rng
              (if c1 = true then u.activate_skills .onDamage cdA rng k1 else (u, cdB, k1)).2.2
          else
            ((if c1 = true then u.activate_skills .onDamage cdA rng k1 else (u, cdB, k1)).1,
             (if c1 = true then u.activate_skills .onDamage cdA rng k1 else (u, cdB, k1)).2.1,
             (if c1 = true then u.activate_skills .onDamage cdA rng k1 else (u, cdB, k1)).2.2)).1).wfb = true) := by
  cases c1 <;> cases c2 <;> simp only [Bool.false_eq_true, if_false, if_true]
  · exact ⟨trivial, fun hw => ⟨le_refl _, hw⟩⟩
  · have hM := activate_skills_main u .onKill { cdB with targetKilled := true } rng k1
    exact ⟨hM.1, fun hw => ⟨(hM.2.2.2.2.2 hw).1, (hM.2.2.2.2.2 hw).2⟩⟩
  · have hM := activate_skills_main u .onDamage cdA rng k1
    exact ⟨hM.1, fun hw => ⟨(hM.2.2.2.2.2 hw).1, (hM.2.2.2.2.2 hw).2⟩⟩
  · have hM1 := activate_skills_main u .onDamage cdA rng k1
    have hM2 := activate_skills_main (u.activate_skills .onDamage cdA rng k1).1 .onKill
      { (u.activate_skills .onDamage cdA rng k1).2.1 with targetKilled := true } rng
      (u.activate_skills .onDamage cdA rng k1).2.2
    refine ⟨hM2.1.trans hM1.1, fun hw => ?_⟩
    have h1 := hM1.2.2.2.2.2 hw
    have h2 := hM2.2.2.2.2.2 h1.2
    exact ⟨le_trans h1.1 h2.1, h2.2⟩

/-- The accumulated multi-hit total never decreases, with no assumption
on the defender's hp. -/
lemma multiGo_total_mono (damage : Int) (mult : Frac) (crit : Bool)
    (hd : 0 ≤ damage) (hm : mult.wfb = true) :
    ∀ (rem i : Nat) (hp total : Int),
      total ≤ (multiGo damage mult crit i rem hp total).2 := by
  have hd0 : 0 ≤ truncMul damage mult := truncMul_nonneg _ _ hd hm
  intro rem
  induction rem with
  | zero => intro i hp total; simp [multiGo]
  | succ rem ih =>
      intro i hp total
      simp only [multiGo]
      set d := if i = 0 ∧ crit then truncMul damage mult * 3 else truncMul damage mult with hddef
      have hdn : 0 ≤ d := by rw [hddef]; split <;> omega
      by_cases hstop : max 0 (hp - d) ≤ 0
      · simp only [if_pos hstop]; omega
      · simp only [if_neg hstop]
        have := ih (i + 1) (max 0 (hp - d)) (total + d)
        omega

/-- The landed-strike update leaves the rest of the striker unchanged
apart from hp and the weapon durability decrement. -/
lemma strike_update_weapon (l : List Skill) (total : Int) (u : Combatant) :
    (useWeapon (healScan l total u)).equippedWeapon
      = u.equippedWeapon.map (fun w => { w with durability := w.durability - 1 }) := by
  have hshape := (healScan_main l total u).1
  have : (healScan l total u).equippedWeapon = u.equippedWeapon := by rw [hshape]
  unfold useWeapon
  rw [this]

/-- perform_attack on the striking side: the equipped weapon loses
exactly one durability point on a landed strike and none on a miss
(with no lower bound), and under well-formedness the striker's hp never
decreases (it is only healed) and well-formedness is preserved. -/
lemma perform_attack_attacker (a b : Combatant) (m : GameMap) (rng : Nat → Nat) (k : Nat) :
    (perform_attack a b m rng k).attacker.equippedWeapon
      = a.equippedWeapon.map (fun w =>
          { w with durability := w.durability -
              (if (perform_attack a b m rng k).result.hit = true then 1 else 0) }) ∧
    (a.wfb = true →
      a.currentHp ≤ (perform_attack a b m rng k).attacker.currentHp ∧
      (perform_attack a b m rng k).attacker.wfb = true) := by
  have hA := activate_skills_main a .onAttack { isAttacker := true } rng k
  have hIn := activate_skills_inert b .onDefend
    (a.activate_skills .onAttack { isAttacker := true } rng k).2.1 rng
    (a.activate_skills .onAttack { isAttacker := true } rng k).2.2
    (Or.inr (Or.inr (Or.inl ⟨rfl, hA.2.2.1⟩)))
  have hdn := calculate_damage_nonneg
    (a.activate_skills .onAttack { isAttacker := true } rng k).1 b m
  unfold perform_attack
  dsimp only
  rw [hIn]
  dsimp only
  set A := a.activate_skills .onAttack { isAttacker := true } rng k with hAdef
  by_cases hHit : (rng A.2.2 : Int) ≤ calculate_hit_chance A.1 b m
  · simp only [hHit, decide_True, Bool.true_and, if_true]
    refine ⟨?_, ?_⟩
    · refine ((striker_two_pass _ _ _ _ _ rng _).1.trans
        ((strike_update_weapon _ _ _).trans ?_))
      rw [hA.1]
    · intro hwa
      have hmono := (hA.2.2.2.2.2 hwa).1
      have ha1w := (hA.2.2.2.2.2 hwa).2
      have hact := (wfb_parts _ ha1w).2.2.2
      have hmw := multiScan_wfb _ hact
      have hT : 0 ≤ (if (multiScan A.1.activeSkills).1 = true then
          multiGo (calculate_damage A.1 b m) (multiScan A.1.activeSkills).2.2
            (decide ((rng (A.2.2 + 1) : Int) ≤ calculate_crit_chance A.1 b)) 0
            (multiScan A.1.activeSkills).2.1 b.currentHp 0
        else
          (max 0 (b.currentHp -
              if decide ((rng (A.2.2 + 1) : Int) ≤ calculate_crit_chance A.1 b) = true
              then calculate_damage A.1 b m * 3 else calculate_damage A.1 b m),
            if decide ((rng (A.2.2 + 1) : Int) ≤ calculate_crit_chance A.1 b) = true
            then calculate_damage A.1 b m * 3 else calculate_damage A.1 b m)).2 := by
        split
        · exact multiGo_total_mono (calculate_damage A.1 b m) (multiScan A.1.activeSkills).2.2
            (decide ((rng (A.2.2 + 1) : Int) ≤ calculate_crit_chance A.1 b)) hdn hmw
            (multiScan A.1.activeSkills).2.1 0 b.currentHp 0
        · dsimp only
          split <;> omega
      have hU := strike_update_facts A.1.activeSkills _ A.1 ha1w hact hT
      constructor
      · refine le_trans hmono (le_trans hU.1 ?_)
        exact ((striker_two_pass _ _ _ _ _ rng _).2 hU.2.1).1
      · exact ((striker_two_pass _ _ _ _ _ rng _).2 hU.2.1).2
  · simp only [hHit, decide_False, Bool.false_and, Bool.false_eq_true, if_false]
    refine ⟨?_, ?_⟩
    · refine ((branch_pass A.1 .onKill _ A.2.1 rng (A.2.2 + 2) (A.2.2 + 2) _).1).trans ?_
      rw [hA.1]
      exact (map_dur_zero _).symm
    · intro hwa
      have hmono := (hA.2.2.2.2.2 hwa).1
      have ha1w := (hA.2.2.2.2.2 hwa).2
      refine ⟨le_trans hmono ?_, ?_⟩
      · exact ((branch_pass A.1 .onKill _ A.2.1 rng (A.2.2 + 2) (A.2.2 + 2) _).2 ha1w).1
      · exact ((branch_pass A.1 .onKill _ A.2.1 rng (A.2.2 + 2) (A.2.2 + 2) _).2 ha1w).2

/-- The "killed" field of the result dict is the struck side's death flag
after the strike. -/
lemma perform_attack_killed (a b : Combatant) (m : GameMap) (rng : Nat → Nat) (k : Nat) :
    (perform_attack a b m rng k).result.killed = (perform_attack a b m rng k).defender.is_dead := rfl

lemma perform_attack_defender_wfb (a b : Combatant) (m : GameMap) (rng : Nat → Nat) (k : Nat)
    (hwa : a.wfb = true) (hwb : b.wfb = true) :
    (perform_attack a b m rng k).defender.wfb = true := by
  obtain ⟨h0, h1, hsk, hac⟩ := wfb_parts b hwb
  obtain ⟨hd, hnn, -, -⟩ := perform_attack_result a b m rng k hwa h0
  rw [hd]
  simp only [Combatant.wfb, Bool.and_eq_true, decide_eq_true_eq, List.all_eq_true]
  refine ⟨⟨⟨?_, ?_⟩, hsk⟩, hac⟩
  · exact le_max_left _ _
  · have : max 0 (b.currentHp - (perform_attack a b m rng k).result.damage) ≤ b.currentHp := by
      omega
    exact this.trans h1

/-- Projections of the terminal block: the ghost fields are returned
unchanged, the buckets are the (possibly swapped-back) input lists, and
both combatants come back with their transient state cleared. -/
lemma finish_combat_proj (swap : Bool) (aRes dRes : List StrikeResult)
    (aU dU : Combatant) (aTk dTk : Bool) (rng : Nat → Nat) (k : Nat)
    (trace : List CombatEvent) (cI : Option CounterInfo) (fI : Option FollowInfo) :
    (finish_combat swap aRes dRes aU dU aTk dTk rng k trace cI fI).trace = trace ∧
    (finish_combat swap aRes dRes aU dU aTk dTk rng k trace cI fI).counterInfo = cI ∧
    (finish_combat swap aRes dRes aU dU aTk dTk rng k trace cI fI).followInfo = fI ∧
    (finish_combat swap aRes dRes aU dU aTk dTk rng k trace cI fI).swapRoles = swap ∧
    (finish_combat swap aRes dRes aU dU aTk dTk rng k trace cI fI).attackerResults
      = (if swap then dRes else aRes) ∧
    (finish_combat swap aRes dRes aU dU aTk dTk rng k trace cI fI).defenderResults
      = (if swap then aRes else dRes) :=
  ⟨rfl, rfl, rfl, rfl, rfl, rfl⟩

lemma finish_combat_clears (swap : Bool) (aRes dRes : List StrikeResult)
    (aU dU : Combatant) (aTk dTk : Bool) (rng : Nat → Nat) (k : Nat)
    (trace : List CombatEvent) (cI : Option CounterInfo) (fI : Option FollowInfo) :
    (finish_combat swap aRes dRes aU dU aTk dTk rng k trace cI fI).attackerUnit.activeSkills = [] ∧
    (finish_combat swap aRes dRes aU dU aTk dTk rng k trace cI fI).attackerUnit.tempStatModifiers = [] ∧
    (finish_combat swap aRes dRes aU dU aTk dTk rng k trace cI fI).defenderUnit.activeSkills = [] ∧
    (finish_combat swap aRes dRes aU dU aTk dTk rng k trace cI fI).defenderUnit.tempStatModifiers = [] :=
  ⟨rfl, rfl, rfl, rfl⟩

/-- Every exit of the follow-up stage goes through the terminal block,
keeping the swap flag and the counter decision. -/
lemma coreFollow_eq_finish (swap canCounter : Bool) (cInfo : Option CounterInfo)
    (aRes2 dRes2 : List StrikeResult) (aU2 dU2 : Combatant) (m : GameMap)
    (rng : Nat → Nat) (k4 : Nat) (trace2 : List CombatEvent) :
    ∃ aR dR aU3 dU3 aTk dTk k5 tr fI,
      coreFollow swap canCounter cInfo aRes2 dRes2 aU2 dU2 m rng k4 trace2
        = finish_combat swap aR dR aU3 dU3 aTk dTk rng k5 tr cInfo fI := by
  unfold coreFollow
  dsimp only
  repeat' split
  all_goals exact ⟨_, _, _, _, _, _, _, _, _, rfl⟩

/-- Every exit of the counter stage goes through the terminal block,
keeping the swap flag. -/
lemma coreCounter_eq_finish (swap : Bool) (aRes1 dRes1 : List StrikeResult)
    (aU1 dU1 : Combatant) (m : GameMap) (rng : Nat → Nat) (k3 : Nat)
    (e1 : CombatEvent) :
    ∃ aR dR aU2 dU2 aTk dTk k4 tr cI fI,
      coreCounter swap aRes1 dRes1 aU1 dU1 m rng k3 e1
        = finish_combat swap aR dR aU2 dU2 aTk dTk rng k4 tr cI fI := by
  unfold coreCounter
  dsimp only
  repeat' split
  all_goals first
    | exact ⟨_, _, _, _, _, _, _, _, _, _, rfl⟩
    | (obtain ⟨aR, dR, aU3, dU3, aTk, dTk, k5, tr, fI, h⟩ :=
        coreFollow_eq_finish swap _ _ _ _ _ _ m rng _ _
       exact ⟨aR, dR, aU3, dU3, aTk, dTk, k5, tr, _, fI, h⟩)

/-- Every exit of the exchange body goes through the terminal block. -/
lemma core_eq_finish (swap : Bool) (aU dU : Combatant) (m : GameMap)
    (rng : Nat → Nat) (k : Nat) :
    ∃ aR dR aU2 dU2 aTk dTk k2 tr cI fI,
      perform_combat_core swap aU dU m rng k
        = finish_combat swap aR dR aU2 dU2 aTk dTk rng k2 tr cI fI := by
  unfold perform_combat_core
  dsimp only
  repeat' split
  all_goals first
    | exact ⟨_, _, _, _, _, _, _, _, _, _, rfl⟩
    | (obtain ⟨aR, dR, aU2, dU2, aTk, dTk, k4, tr, cI, fI, h⟩ :=
        coreCounter_eq_finish swap _ _ _ _ m rng _ _
       exact ⟨aR, dR, aU2, dU2, aTk, dTk, k4, tr, cI, fI, h⟩)

/-- The PRE_COMBAT passes trigger nothing, so perform_combat is the
exchange body applied to the unmodified combatants, with the swap flag
computed by the vantage scans. -/
lemma perform_combat_eq_core (attacker defender : Combatant) (m : GameMap) (rng : Nat → Nat) :
    perform_combat attacker defender m rng
      = perform_combat_core
          (hasVantage defender { isAttacker := false } rng 0 &&
            !hasVantage attacker { isAttacker := true } rng 0)
          attacker defender m rng 0 := by
  unfold perform_combat
  dsimp only
  rw [activate_skills_inert attacker .preCombat { isAttacker := true } rng 0 (Or.inl rfl)]
  dsimp only
  rw [activate_skills_inert defender .preCombat { isAttacker := false } rng 0 (Or.inl rfl)]

/-- C1: on every terminal branch of perform_combat — lethal exit after
the initiating strike, after the counter, after a follow-up, or full
completion — both combatants are returned with an empty active-skill
list and an empty transient stat-modifier map. -/
theorem c1_transients_cleared_on_every_exit (attacker defender : Combatant)
    (m : GameMap) (rng : Nat → Nat) :
    (perform_combat attacker defender m rng).attackerUnit.activeSkills = [] ∧
    (perform_combat attacker defender m rng).attackerUnit.tempStatModifiers = [] ∧
    (perform_combat attacker defender m rng).defenderUnit.activeSkills = [] ∧
    (perform_combat attacker defender m rng).defenderUnit.tempStatModifiers = [] := by
  rw [perform_combat_eq_core]
  obtain ⟨aR, dR, aU2, dU2, aTk, dTk, k2, tr, cI, fI, heq⟩ :=
    core_eq_finish
      (hasVantage defender { isAttacker := false } rng 0 &&
        !hasVantage attacker { isAttacker := true } rng 0)
      attacker defender m rng 0
  rw [heq]
  exact finish_combat_clears _ _ _ _ _ _ _ _ _ _ _ _


/-! ### Concrete fixtures

A plain blade, a neutral flat map, and a reference combatant whose hit
components sum to 95 (weapon hit 50 + 2×20 skill + 10/2 luck) against an
avoid of 20 (2×5 speed + 10 luck), with attack power 15 (10 strength +
5 might) against defense 3. -/

def wBlade : Weapon :=
  { weaponType := .sword, might := 5, hit := 50, crit := 0, weight := 0,
    rangeMin := 1, rangeMax := 1, durability := 10 }

def baseU : Combatant :=
  { maxHp := 30, currentHp := 30, strength := 10, magic := 0, skill := 20,
    speed := 5, luck := 10, defense := 3, resistance := 0, x := 0, y := 0,
    equippedWeapon := some wBlade, skills := [], activeSkills := [],
    tempStatModifiers := [] }

def flatM : GameMap :=
  { terrainDodge := fun _ _ => 0, terrainDefense := fun _ _ => 0 }

/-- C4: calculate_hit_chance is the attacker hit rate
(weapon hit + 2×skill + luck/2), plus the weapon-matchup hit bonus, plus
the attacker's hit-modifier skill contributions, minus the defender's
avoid (2×speed + luck), the defender tile's terrain dodge and the
defender's avoid-boost skill contributions, clamped to [0, 100]. -/
theorem c4_hit_chance_formula (a d : Combatant) (m : GameMap) (w : Weapon)
    (hw : a.equippedWeapon = some w) :
    calculate_hit_chance a d m
      = max 0 (min 100
          ((w.hit + a.skill * 2 + Int.fdiv a.luck 2)
            + (match d.equippedWeapon with
               | some wd => weaponTriangle w.weaponType wd.weaponType * 15
               | none => 0)
            + (hitBoostSum a.activeSkills + specialHitBonus a.activeSkills d.equippedWeapon)
            - (d.speed * 2 + d.luck)
            - m.terrainDodge d.x d.y
            - avoidBoostSum d.activeSkills)) := by
  unfold calculate_hit_chance Combatant.get_hit_rate Combatant.get_avoid
  rw [hw]
  cases hd : d.equippedWeapon <;> dsimp only

/-- C4 witness: the spec fixture — hit components 95 against avoid 20,
neutral matchup, no skills — yields 75. -/
theorem c4_hit_witness :
    baseU.equippedWeapon = some wBlade ∧ calculate_hit_chance baseU baseU flatM = 75 := by
  refine ⟨rfl, ?_⟩
  rw [c4_hit_chance_formula baseU baseU flatM wBlade rfl]
  decide

/-- C5: calculate_damage is the attacker attack power (strength or magic
by weapon category, plus might), plus the matchup might bonus, plus the
damage-boost and defense-pierce skill contributions, minus the matching
defense stat, the defender tile's terrain defense and the damage-reduce
skill contributions, floored at 0. -/
theorem c5_damage_formula (a d : Combatant) (m : GameMap) (w : Weapon)
    (hw : a.equippedWeapon = some w) :
    calculate_damage a d m
      = max 0
          (((if w.weaponType = WeaponType.magic then a.magic else a.strength) + w.might)
            + (match d.equippedWeapon with
               | some wd => weaponTriangle w.weaponType wd.weaponType * 1
               | none => 0)
            + (dmgBoostSum a.activeSkills
                + pierceSum a.activeSkills
                    (if w.weaponType = WeaponType.magic then d.resistance else d.defense))
            - (if w.weaponType = WeaponType.magic then d.resistance else d.defense)
            - m.terrainDefense d.x d.y
            - dmgReduceSum d.activeSkills
                ((if w.weaponType = WeaponType.magic then a.magic else a.strength) + w.might)
                (if w.weaponType = WeaponType.magic then d.resistance else d.defense)) := by
  unfold calculate_damage Combatant.get_attack_power
  rw [hw]
  cases hd : d.equippedWeapon <;> dsimp only <;>
    by_cases hm : w.weaponType = WeaponType.magic <;>
      simp only [hm, decide_True, decide_False, if_true, if_false, ite_true, ite_false,
        Bool.false_eq_true, Bool.true_eq_false]

/-- C5 witness: the spec fixture — attack power 10, blade might 5,
defense 3, neutral everything — yields 12. -/
theorem c5_damage_witness :
    baseU.equippedWeapon = some wBlade ∧ calculate_damage baseU baseU flatM = 12 := by
  refine ⟨rfl, ?_⟩
  rw [c5_damage_formula baseU baseU flatM wBlade rfl]
  decide



/-- C6 (amended): each landed strike decrements the acting side's
equipped weapon durability by exactly one (a miss leaves it unchanged),
with no lower bound — nothing stops the count from going below zero. -/
theorem c6_durability_per_strike (a b : Combatant) (m : GameMap)
    (rng : Nat → Nat) (k : Nat) (w : Weapon) (hw : a.equippedWeapon = some w) :
    (perform_attack a b m rng k).attacker.equippedWeapon
      = some { w with durability := w.durability
          - (if (perform_attack a b m rng k).result.hit = true then 1 else 0) } := by
  have h := (perform_attack_attacker a b m rng k).1
  rw [hw] at h
  simpa using h

/-- C6 witness: the durability equation evaluated on the reference
fixture. -/
theorem c6_durability_witness :
    baseU.equippedWeapon = some wBlade ∧
    (perform_attack baseU baseU flatM (fun _ => 1) 0).attacker.equippedWeapon
      = some { wBlade with durability := wBlade.durability
          - (if (perform_attack baseU baseU flatM (fun _ => 1) 0).result.hit = true then 1 else 0) } :=
  ⟨rfl, c6_durability_per_strike baseU baseU flatM (fun _ => 1) 0 wBlade rfl⟩

/-- An attacker whose weapon enters the strike with 0 remaining uses and
cannot miss (weapon hit 150). -/
def atkDur0 : Combatant :=
  { baseU with equippedWeapon := some { wBlade with hit := 150, durability := 0 } }

/-- C6 counterexample: a landed strike from a weapon at 0 remaining uses
leaves it at −1 — durability does go negative. -/
theorem c6_counterexample :
    (perform_attack atkDur0 baseU flatM (fun _ => 1) 0).result.hit = true ∧
    (perform_attack atkDur0 baseU flatM (fun _ => 1) 0).attacker.equippedWeapon
      = some { wBlade with hit := 150, durability := -1 } := by decide

/-- Hits after the first of the multi-attack loop each add exactly
`int(damage * multiplier)`; the loop stops early only with the defender
at (clamped) 0 hp. -/
lemma multiGo_tail_total (dm : Int) (f : Frac) (c : Bool) :
    ∀ (rem i : Nat) (hp total : Int), 1 ≤ i →
      ∃ n : Nat, n ≤ rem ∧
        (multiGo dm f c i rem hp total).2 = total + n * truncMul dm f ∧
        (n < rem → (multiGo dm f c i rem hp total).1 ≤ 0) := by
  intro rem
  induction rem with
  | zero =>
      intro i hp total hi
      exact ⟨0, Nat.le_refl 0, by simp [multiGo], by omega⟩
  | succ r ih =>
      intro i hp total hi
      unfold multiGo
      dsimp only
      rw [if_neg (by omega : ¬(i = 0 ∧ c = true))]
      split
      · refine ⟨1, by omega, by push_cast; ring, fun _ => ?_⟩
        dsimp only
        omega
      · obtain ⟨n, hn, he, hs⟩ :=
          ih (i + 1) (max 0 (hp - truncMul dm f)) (total + truncMul dm f) (by omega)
        refine ⟨n + 1, by omega, ?_, fun h => hs (by omega)⟩
        rw [he]; push_cast; ring

/-- The first hit of the multi-attack loop adds `int(damage * multiplier)`
tripled exactly when the strike is critical; every later hit adds the
untripled amount; the loop stops early only with the defender dead. -/
lemma multiGo_head_total (dm : Int) (f : Frac) (c : Bool) (rem : Nat) (hp : Int) :
    ∃ n : Nat, n ≤ rem ∧
      (multiGo dm f c 0 (rem + 1) hp 0).2
        = (if c = true then 3 * truncMul dm f else truncMul dm f) + n * truncMul dm f ∧
      (n < rem → (multiGo dm f c 0 (rem + 1) hp 0).1 ≤ 0) := by
  unfold multiGo
  dsimp only
  cases c <;>
    simp only [Bool.false_eq_true, and_false, if_false, eq_self_iff_true, and_self,
      if_true, zero_add]
  · split
    · exact ⟨0, Nat.zero_le _, by push_cast; ring, fun _ => by assumption⟩
    · obtain ⟨n, hn, he, hs⟩ := multiGo_tail_total dm f false rem 1
        (max 0 (hp - truncMul dm f)) (truncMul dm f) (by omega)
      exact ⟨n, hn, by rw [he], hs⟩
  · split
    · exact ⟨0, Nat.zero_le _, by push_cast; ring, fun _ => by assumption⟩
    · obtain ⟨n, hn, he, hs⟩ := multiGo_tail_total dm f true rem 1
        (max 0 (hp - truncMul dm f * 3)) (truncMul dm f * 3) (by omega)
      exact ⟨n, hn, by rw [he]; push_cast; ring, hs⟩

/-- C10 (amended): the defender leaves the strike with hp clamped at
`max 0 (hp − result.damage)` — so on overkill the `damage` field exceeds
the hp actually deducted; damage is never negative and 0 on a miss; a
landed single strike deals exactly 3× the computed damage on a critical;
in the multi-hit loop each hit adds `int(damage × multiplier)`, only the
first hit is tripled on a critical, and the loop stops early only with
the defender dead. -/
theorem c10_strike_damage (a b : Combatant) (m : GameMap) (rng : Nat → Nat)
    (k : Nat) (hwa : a.wfb = true) (hb0 : 0 ≤ b.currentHp) :
    (perform_attack a b m rng k).defender
      = { b with currentHp := max 0 (b.currentHp - (perform_attack a b m rng k).result.damage) } ∧
    0 ≤ (perform_attack a b m rng k).result.damage ∧
    ((perform_attack a b m rng k).result.hit = false →
      (perform_attack a b m rng k).result.damage = 0) ∧
    ((perform_attack a b m rng k).result.hit = true →
      (perform_attack a b m rng k).result.multiAttack = false →
      (perform_attack a b m rng k).result.damage
        = if (perform_attack a b m rng k).result.critical = true
          then (perform_attack a b m rng k).baseDamage * 3
          else (perform_attack a b m rng k).baseDamage) ∧
    (∀ (dm : Int) (f : Frac) (c : Bool) (rem : Nat) (hp : Int),
      ∃ n : Nat, n ≤ rem ∧
        (multiGo dm f c 0 (rem + 1) hp 0).2
          = (if c = true then 3 * truncMul dm f else truncMul dm f) + n * truncMul dm f ∧
        (n < rem → (multiGo dm f c 0 (rem + 1) hp 0).1 ≤ 0)) := by
  obtain ⟨h1, h2, h3, h4⟩ := perform_attack_result a b m rng k hwa hb0
  exact ⟨h1, h2, h3, h4, fun dm f c rem hp => multiGo_head_total dm f c rem hp⟩

/-- A defender with 5 hp in front of a 12-damage strike. -/
def dfdLowHp : Combatant := { baseU with currentHp := 5 }

/-- C10 counterexample: on overkill the result's damage field (12) is not
the hp actually deducted (5). -/
theorem c10_counterexample :
    (perform_attack baseU dfdLowHp flatM (fun _ => 1) 0).result.hit = true ∧
    (perform_attack baseU dfdLowHp flatM (fun _ => 1) 0).result.damage = 12 ∧
    dfdLowHp.currentHp - (perform_attack baseU dfdLowHp flatM (fun _ => 1) 0).defender.currentHp = 5 := by
  decide

/-- C10 witness: the accounting equation evaluated on the reference
fixture (the hypotheses hold there). -/
theorem c10_witness :
    baseU.wfb = true ∧ (0 : Int) ≤ baseU.currentHp ∧
    (perform_attack baseU baseU flatM (fun _ => 1) 0).defender
      = { baseU with currentHp := max 0 (baseU.currentHp
            - (perform_attack baseU baseU flatM (fun _ => 1) 0).result.damage) } :=
  ⟨by decide, by decide,
    (c10_strike_damage baseU baseU flatM (fun _ => 1) 0 (by decide) (by decide)).1⟩



/-- A vantage skill: HP_THRESHOLD trigger (hp < 50%), SPECIAL_ATTACK
effect with a "vantage" dict payload. -/
def vantageSkill : Skill :=
  { name := "v", triggerType := .hpThreshold, effectType := .specialAttack,
    trigVal := .cmpPair .lt 50, effVal := .dictv { vantage := true },
    duration := -1, remainingDuration := -1, isActive := false }

/-- The original attacker of the C2 encounter: 10 hp, 0 defense, no
vantage. -/
def atk2 : Combatant := { baseU with currentHp := 10, defense := 0 }

/-- The original defender of the C2 encounter: holds the vantage skill at
10/30 hp (trigger live), hits surely, and one-shots atk2. -/
def dfd2 : Combatant :=
  { baseU with
    currentHp := 10, strength := 20, skills := [vantageSkill],
    y := 1, equippedWeapon := some { wBlade with hit := 100 } }

/-- C2: with only the defending side holding a live vantage effect, roles
swap for the encounter — but the lone lethal strike, performed by the
caller's original defender (the trace records byOriginalAttacker =
false), is returned in attacker_results while defender_results is empty:
the strike was routed to the original-role bucket during combat and the
terminal block swaps the buckets again, so the public labels are
inverted. -/
theorem c2_bucket_double_swap :
    (perform_combat atk2 dfd2 flatM (fun _ => 1)).swapRoles = true ∧
    (perform_combat atk2 dfd2 flatM (fun _ => 1)).trace.map (fun e => e.byOriginalAttacker)
      = [false] ∧
    (perform_combat atk2 dfd2 flatM (fun _ => 1)).attackerResults.length = 1 ∧
    (perform_combat atk2 dfd2 flatM (fun _ => 1)).attackerResults.map (fun r => r.killed)
      = [true] ∧
    (perform_combat atk2 dfd2 flatM (fun _ => 1)).defenderResults = [] ∧
    (perform_combat atk2 dfd2 flatM (fun _ => 1)).attackerUnit.currentHp = 0 := by
  decide

/-- A skill granted by a legendary weapon for the C9 encounter. -/
def grantedSkill : Skill :=
  { name := "g", triggerType := .alwaysActive, effectType := .damageBoost,
    trigVal := .nonev, effVal := .intv 5, duration := -1,
    remainingDuration := -1, isActive := false }

/-- A legendary blade carrying one granted skill and one stat-boost
effect. -/
def wLeg : Weapon :=
  { wBlade with
    isLegendary := true, weaponSkills := [grantedSkill],
    effects := [{ kind := .statBoost, statBoosts := [(.strength, 2)] }] }

/-- The C9 attacker: empty permanent skill roster, legendary weapon
equipped. -/
def atk9 : Combatant := { baseU with equippedWeapon := some wLeg }

/-- The C9 defender. -/
def dfd9 : Combatant := { baseU with y := 1 }

/-- C9: an encounter resolved through the item-effect-aware path leaves
the weapon-granted skill in the attacker's permanent roster after
returning (the roster grew from [] to ["g"]): the grant is added to
`unit.skills` before each strike and never removed — remove_effects only
clears temp stat modifiers. -/
theorem c9_granted_skill_persists :
    atk9.skills = [] ∧
    (ePerform_combat atk9 dfd9 flatM (fun _ => 100)).attackerUnit.skills.map (fun s => s.name)
      = ["g"] ∧
    (ePerform_combat atk9 dfd9 flatM (fun _ => 100)).attackerUnit.tempStatModifiers = [] := by
  decide



/-- The follow-up stage appends at most one event to the ghost trace,
and any event it appends is followUp-staged. -/
lemma coreFollow_trace_cases (swap canCounter : Bool) (cInfo : Option CounterInfo)
    (aRes dRes : List StrikeResult) (aU dU : Combatant) (m : GameMap)
    (rng : Nat → Nat) (k : Nat) (tr : List CombatEvent) :
    (coreFollow swap canCounter cInfo aRes dRes aU dU m rng k tr).trace = tr ∨
    ∃ ev : CombatEvent, ev.stage = Stage.followUp ∧
      (coreFollow swap canCounter cInfo aRes dRes aU dU m rng k tr).trace = tr ++ [ev] := by
  unfold coreFollow
  dsimp only
  repeat' split
  all_goals first
    | exact Or.inl rfl
    | exact Or.inr ⟨_, rfl, rfl⟩

/-- The follow-up stage returns the counter decision it was handed. -/
lemma coreFollow_counterInfo (swap canCounter : Bool) (cInfo : Option CounterInfo)
    (aRes dRes : List StrikeResult) (aU dU : Combatant) (m : GameMap)
    (rng : Nat → Nat) (k : Nat) (tr : List CombatEvent) :
    (coreFollow swap canCounter cInfo aRes dRes aU dU m rng k tr).counterInfo = cInfo := by
  unfold coreFollow
  dsimp only
  repeat' split
  all_goals rfl



/-- The follow-up stage adds no counter-staged event to the trace. -/
lemma coreFollow_counter_filter (swap canCounter : Bool) (cInfo : Option CounterInfo)
    (aRes dRes : List StrikeResult) (aU dU : Combatant) (m : GameMap)
    (rng : Nat → Nat) (k : Nat) (tr : List CombatEvent) :
    (coreFollow swap canCounter cInfo aRes dRes aU dU m rng k tr).trace.filter
        (fun e => decide (e.stage = Stage.counter))
      = tr.filter (fun e => decide (e.stage = Stage.counter)) := by
  rcases coreFollow_trace_cases swap canCounter cInfo aRes dRes aU dU m rng k tr with
    hc | ⟨ev, hev, hc⟩ <;> rw [hc]
  simp [List.filter_append, hev]

/-- C7 (amended): the counter range check returns false for any unarmed
defender, but the counter stage fires on `rangeOk OR guaranteed`: the
counter decision recorded is exactly
(counterRangeCheck temp_attacker temp_defender,
 active COUNTER_ATTACK effect on temp_defender), and a counter-staged
strike occurs exactly when either flag is set — so an unarmed defender
with an active guaranteed-counter effect does counter. -/
theorem c7_counter_needs_weapon_or_flag (swap : Bool)
    (aRes dRes : List StrikeResult) (aU dU : Combatant) (m : GameMap)
    (rng : Nat → Nat) (k : Nat) (e1 : CombatEvent)
    (he : decide (e1.stage = Stage.counter) = false) :
    (∀ ta td : Combatant, td.equippedWeapon = none → counterRangeCheck ta td = false) ∧
    (coreCounter swap aRes dRes aU dU m rng k e1).counterInfo
      = some ⟨counterRangeCheck (if swap then dU else aU) (if swap then aU else dU),
              hasActiveEffect (if swap then aU else dU).activeSkills .counterAttack⟩ ∧
    ((coreCounter swap aRes dRes aU dU m rng k e1).trace.filter
        (fun e => decide (e.stage = Stage.counter))).length
      = (if counterRangeCheck (if swap then dU else aU) (if swap then aU else dU)
            || hasActiveEffect (if swap then aU else dU).activeSkills .counterAttack
         then 1 else 0) := by
  refine ⟨fun ta td h => by simp [counterRangeCheck, h], ?_, ?_⟩
  · unfold coreCounter
    dsimp only
    repeat' split
    all_goals try rfl
    all_goals rw [coreFollow_counterInfo]
  · unfold coreCounter
    dsimp only
    repeat' split
    all_goals try rw [coreFollow_counter_filter]
    all_goals simp [List.filter, he]


/-- A guaranteed-counter skill already active on the defender. -/
def counterSkill : Skill :=
  { name := "c", triggerType := .alwaysActive, effectType := .counterAttack,
    trigVal := .nonev, effVal := .boolv true, duration := -1,
    remainingDuration := -1, isActive := true }

/-- The C7 defender: no weapon equipped, guaranteed-counter active. -/
def dfd7 : Combatant :=
  { baseU with y := 1, equippedWeapon := none, activeSkills := [counterSkill] }

/-- C7 counterexample: an unarmed defender with an active
guaranteed-counter effect produces a counter strike result — the counter
decision records rangeOk = false (no weapon) but guaranteed = true, and a
counter-staged strike by the original defender lands in the defender's
bucket. -/
theorem c7_counterexample :
    dfd7.equippedWeapon = none ∧
    (perform_combat baseU dfd7 flatM (fun _ => 100)).counterInfo
      = some ⟨false, true⟩ ∧
    (perform_combat baseU dfd7 flatM (fun _ => 100)).trace.map (fun e => e.stage)
      = [Stage.initiate, Stage.counter] ∧
    (perform_combat baseU dfd7 flatM (fun _ => 100)).defenderResults.length = 1 := by
  decide

/-- An initiate-staged event for instantiating the counter-stage
theorem. -/
def evInit : CombatEvent :=
  { stage := .initiate, byOriginalAttacker := true, strikerHpBefore := 30,
    struckHpBefore := 30,
    result := { hit := false, damage := 0, critical := false, killed := false,
                hitChance := 0, critChance := 0, multiAttack := false,
                attackCount := 1 } }

/-- C7 witness: the counter-stage decision evaluated concretely on the
unarmed guaranteed-counter defender. -/
theorem c7_witness :
    decide (evInit.stage = Stage.counter) = false ∧
    counterRangeCheck baseU dfd7 = false ∧
    (coreCounter false [] [] baseU dfd7 flatM (fun _ => 100) 2 evInit).counterInfo
      = some ⟨counterRangeCheck baseU dfd7,
              hasActiveEffect dfd7.activeSkills .counterAttack⟩ :=
  ⟨rfl,
   (c7_counter_needs_weapon_or_flag false [] [] baseU dfd7 flatM (fun _ => 100) 2
      evInit rfl).1 baseU dfd7 rfl,
   (c7_counter_needs_weapon_or_flag false [] [] baseU dfd7 flatM (fun _ => 100) 2
      evInit rfl).2.1⟩



/-- The follow-up stage adds at most one followUp-staged event past a
trace holding none. -/
lemma coreFollow_fu_count (swap canCounter : Bool) (cInfo : Option CounterInfo)
    (aRes dRes : List StrikeResult) (aU dU : Combatant) (m : GameMap)
    (rng : Nat → Nat) (k : Nat) (tr : List CombatEvent)
    (htr : tr.filter (fun e => decide (e.stage = Stage.followUp)) = []) :
    ((coreFollow swap canCounter cInfo aRes dRes aU dU m rng k tr).trace.filter
        (fun e => decide (e.stage = Stage.followUp))).length ≤ 1 := by
  rcases coreFollow_trace_cases swap canCounter cInfo aRes dRes aU dU m rng k tr with
    hc | ⟨ev, hev, hc⟩
  · rw [hc]; simp [htr]
  · rw [hc]; simp [List.filter_append, htr, hev]

/-- The counter stage records at most one followUp-staged event. -/
lemma coreCounter_fu_count (swap : Bool) (aRes dRes : List StrikeResult)
    (aU dU : Combatant) (m : GameMap) (rng : Nat → Nat) (k : Nat)
    (e1 : CombatEvent) (he : decide (e1.stage = Stage.followUp) = false) :
    ((coreCounter swap aRes dRes aU dU m rng k e1).trace.filter
        (fun e => decide (e.stage = Stage.followUp))).length ≤ 1 := by
  unfold coreCounter
  dsimp only
  repeat' split
  all_goals first
    | (apply coreFollow_fu_count; simp [List.filter, he])
    | simp [List.filter, he]

/-- The whole exchange body records at most one followUp-staged event. -/
lemma core_fu_count (swap : Bool) (aU dU : Combatant) (m : GameMap)
    (rng : Nat → Nat) (k : Nat) :
    ((perform_combat_core swap aU dU m rng k).trace.filter
        (fun e => decide (e.stage = Stage.followUp))).length ≤ 1 := by
  unfold perform_combat_core
  dsimp only
  repeat' split
  all_goals first
    | (apply coreCounter_fu_count; rfl)
    | simp [List.filter]

/-- C8: every encounter records at most one follow-up strike; in the
follow-up stage the side that struck first (original role `!swap`) gets
the extra strike when it can double or holds a guaranteed follow-up
effect; only when it is ineligible is the second striker evaluated, whose
follow-up additionally requires having been eligible to counter; neither
eligible means no follow-up at all. -/
theorem c8_single_followup (attacker defender aU dU : Combatant) (m : GameMap)
    (rng : Nat → Nat) (swap canCounter : Bool) (cInfo : Option CounterInfo)
    (aRes dRes : List StrikeResult) (k : Nat) (tr : List CombatEvent)
    (htr : tr.filter (fun e => decide (e.stage = Stage.followUp)) = []) :
    ((perform_combat attacker defender m rng).trace.filter
        (fun e => decide (e.stage = Stage.followUp))).length ≤ 1 ∧
    (((if swap then dU else aU).can_double_attack (if swap then aU else dU)
        || hasActiveEffect (if swap then dU else aU).activeSkills .followUp) = true →
      (((coreFollow swap canCounter cInfo aRes dRes aU dU m rng k tr).trace.filter
          (fun e => decide (e.stage = Stage.followUp))).map (fun e => e.byOriginalAttacker))
        = [!swap]) ∧
    (((if swap then dU else aU).can_double_attack (if swap then aU else dU)
        || hasActiveEffect (if swap then dU else aU).activeSkills .followUp) = false →
      (canCounter && ((if swap then aU else dU).can_double_attack (if swap then dU else aU)
        || hasActiveEffect (if swap then aU else dU).activeSkills .followUp)) = true →
      (((coreFollow swap canCounter cInfo aRes dRes aU dU m rng k tr).trace.filter
          (fun e => decide (e.stage = Stage.followUp))).map (fun e => e.byOriginalAttacker))
        = [swap]) ∧
    (((if swap then dU else aU).can_double_attack (if swap then aU else dU)
        || hasActiveEffect (if swap then dU else aU).activeSkills .followUp) = false →
      (canCounter && ((if swap then aU else dU).can_double_attack (if swap then dU else aU)
        || hasActiveEffect (if swap then aU else dU).activeSkills .followUp)) = false →
      (coreFollow swap canCounter cInfo aRes dRes aU dU m rng k tr).trace.filter
          (fun e => decide (e.stage = Stage.followUp))
        = []) := by
  refine ⟨?_, ?_, ?_, ?_⟩
  · rw [perform_combat_eq_core]
    exact core_fu_count _ _ _ _ _ _
  · intro h1
    unfold coreFollow
    dsimp only
    simp only [h1, eq_self_iff_true, if_true]
    repeat' split
    all_goals rw [(finish_combat_proj _ _ _ _ _ _ _ _ _ _ _ _).1]
    all_goals simp [List.filter_append, List.filter, htr]
  · intro h1 h2
    unfold coreFollow
    dsimp only
    simp only [h1, h2, Bool.false_eq_true, if_false, eq_self_iff_true, if_true]
    repeat' split
    all_goals rw [(finish_combat_proj _ _ _ _ _ _ _ _ _ _ _ _).1]
    all_goals simp [List.filter_append, List.filter, htr]
  · intro h1 h2
    unfold coreFollow
    dsimp only
    simp only [h1, h2, Bool.false_eq_true, if_false]
    exact htr



/-- A guaranteed follow-up skill already active. -/
def fuSkill : Skill :=
  { name := "f", triggerType := .alwaysActive, effectType := .followUp,
    trigVal := .nonev, effVal := .boolv true, duration := -1,
    remainingDuration := -1, isActive := true }

/-- The C8 first striker: guaranteed follow-up active. -/
def atk8 : Combatant := { baseU with activeSkills := [fuSkill] }

/-- The C8 second striker: also guaranteed follow-up active. -/
def dfd8 : Combatant := { baseU with y := 1, activeSkills := [fuSkill] }

/-- C8 witness: with both sides eligible, only the first striker's
follow-up fires (label `!swap`), and the full encounter records at most
one follow-up. -/
theorem c8_witness :
    ([] : List CombatEvent).filter (fun e => decide (e.stage = Stage.followUp)) = [] ∧
    (((coreFollow false true none [] [] atk8 dfd8 flatM (fun _ => 100) 2 []).trace.filter
        (fun e => decide (e.stage = Stage.followUp))).map (fun e => e.byOriginalAttacker)
      = [!false]) ∧
    ((perform_combat atk8 dfd8 flatM (fun _ => 100)).trace.filter
        (fun e => decide (e.stage = Stage.followUp))).length ≤ 1 := by
  have h := c8_single_followup atk8 dfd8 atk8 dfd8 flatM (fun _ => 100) false true none
    [] [] 2 [] rfl
  exact ⟨rfl, h.2.1 (by decide), h.1⟩



/-- Facts about a strike routed with the original attacker as striker:
the striker's hp does not drop and both sides stay well-formed; the
killed flag is the struck side's death flag. -/
lemma strikeBy_true_facts (aU dU : Combatant) (m : GameMap) (rng : Nat → Nat)
    (k : Nat) (hwa : aU.wfb = true) (hwd : dU.wfb = true) :
    aU.currentHp ≤ (strikeBy true aU dU m rng k).2.1.currentHp ∧
    (strikeBy true aU dU m rng k).2.1.wfb = true ∧
    (strikeBy true aU dU m rng k).2.2.1.wfb = true ∧
    (strikeBy true aU dU m rng k).1.killed = (strikeBy true aU dU m rng k).2.2.1.is_dead :=
  ⟨((perform_attack_attacker aU dU m rng k).2 hwa).1,
   ((perform_attack_attacker aU dU m rng k).2 hwa).2,
   perform_attack_defender_wfb aU dU m rng k hwa hwd,
   rfl⟩

/-- Facts for a strike routed with the original defender as striker. -/
lemma strikeBy_false_facts (aU dU : Combatant) (m : GameMap) (rng : Nat → Nat)
    (k : Nat) (hwa : aU.wfb = true) (hwd : dU.wfb = true) :
    dU.currentHp ≤ (strikeBy false aU dU m rng k).2.2.1.currentHp ∧
    (strikeBy false aU dU m rng k).2.2.1.wfb = true ∧
    (strikeBy false aU dU m rng k).2.1.wfb = true ∧
    (strikeBy false aU dU m rng k).1.killed = (strikeBy false aU dU m rng k).2.1.is_dead :=
  ⟨((perform_attack_attacker dU aU m rng k).2 hwd).1,
   ((perform_attack_attacker dU aU m rng k).2 hwd).2,
   perform_attack_defender_wfb dU aU m rng k hwd hwa,
   rfl⟩

/-- With both combatants alive at entry, every event the follow-up stage
appends records strictly positive hp on both sides. -/
lemma coreFollow_c3 (swap canCounter : Bool) (cInfo : Option CounterInfo)
    (aRes dRes : List StrikeResult) (aU dU : Combatant) (m : GameMap)
    (rng : Nat → Nat) (k : Nat) (tr : List CombatEvent)
    (haU : 0 < aU.currentHp) (hdU : 0 < dU.currentHp)
    (hpos : ∀ e ∈ tr, 0 < e.strikerHpBefore ∧ 0 < e.struckHpBefore) :
    ∀ e ∈ (coreFollow swap canCounter cInfo aRes dRes aU dU m rng k tr).trace,
      0 < e.strikerHpBefore ∧ 0 < e.struckHpBefore := by
  unfold coreFollow
  dsimp only
  repeat' split
  all_goals rw [(finish_combat_proj _ _ _ _ _ _ _ _ _ _ _ _).1]
  all_goals intro e he
  all_goals first
    | exact hpos e he
    | (rcases List.mem_append.1 he with h | h
       · exact hpos e h
       · simp only [List.mem_singleton] at h
         subst h
         first
           | exact ⟨haU, hdU⟩
           | exact ⟨hdU, haU⟩)


/-- With both combatants alive and well-formed at entry, every event the
counter stage (and the follow-up stage after it) records has strictly
positive hp on both sides. -/
lemma coreCounter_c3 (swap : Bool) (aRes dRes : List StrikeResult)
    (aU dU : Combatant) (m : GameMap) (rng : Nat → Nat) (k : Nat) (e1 : CombatEvent)
    (hwa : aU.wfb = true) (hwd : dU.wfb = true)
    (haU : 0 < aU.currentHp) (hdU : 0 < dU.currentHp)
    (h1 : 0 < e1.strikerHpBefore ∧ 0 < e1.struckHpBefore) :
    ∀ e ∈ (coreCounter swap aRes dRes aU dU m rng k e1).trace,
      0 < e.strikerHpBefore ∧ 0 < e.struckHpBefore := by
  unfold coreCounter
  cases swap
  · dsimp only
    simp only [Bool.false_eq_true, eq_self_iff_true, if_false, if_true]
    repeat' split
    · rw [(finish_combat_proj _ _ _ _ _ _ _ _ _ _ _ _).1]
      intro e he
      simp only [List.mem_cons, List.mem_singleton, List.not_mem_nil, or_false] at he
      rcases he with rfl | rfl
      · exact h1
      · exact ⟨hdU, haU⟩
    · rename_i hdead
      apply coreFollow_c3
      · simp only [Combatant.is_dead, decide_eq_true_eq] at hdead
        omega
      · exact lt_of_lt_of_le hdU (strikeBy_false_facts aU dU m rng k hwa hwd).1
      · intro e he
        simp only [List.mem_cons, List.mem_singleton, List.not_mem_nil, or_false] at he
        rcases he with rfl | rfl
        · exact h1
        · exact ⟨hdU, haU⟩
    · apply coreFollow_c3
      · exact haU
      · exact hdU
      · intro e he
        simp only [List.mem_singleton] at he
        subst he
        exact h1
  · dsimp only
    simp only [Bool.false_eq_true, eq_self_iff_true, if_false, if_true]
    repeat' split
    · rw [(finish_combat_proj _ _ _ _ _ _ _ _ _ _ _ _).1]
      intro e he
      simp only [List.mem_cons, List.mem_singleton, List.not_mem_nil, or_false] at he
      rcases he with rfl | rfl
      · exact h1
      · exact ⟨haU, hdU⟩
    · rename_i hdead
      apply coreFollow_c3
      · exact lt_of_lt_of_le haU (strikeBy_true_facts aU dU m rng k hwa hwd).1
      · simp only [Combatant.is_dead, decide_eq_true_eq] at hdead
        omega
      · intro e he
        simp only [List.mem_cons, List.mem_singleton, List.not_mem_nil, or_false] at he
        rcases he with rfl | rfl
        · exact h1
        · exact ⟨haU, hdU⟩
    · apply coreFollow_c3
      · exact haU
      · exact hdU
      · intro e he
        simp only [List.mem_singleton] at he
        subst he
        exact h1


/-- The follow-up stage only appends to the trace: the head event is
unchanged. -/
lemma coreFollow_head (swap canCounter : Bool) (cInfo : Option CounterInfo)
    (aRes dRes : List StrikeResult) (aU dU : Combatant) (m : GameMap)
    (rng : Nat → Nat) (k : Nat) (e1 : CombatEvent) (rest : List CombatEvent) :
    (coreFollow swap canCounter cInfo aRes dRes aU dU m rng k (e1 :: rest)).trace.head?
      = some e1 := by
  rcases coreFollow_trace_cases swap canCounter cInfo aRes dRes aU dU m rng k (e1 :: rest)
    with hc | ⟨ev, hev, hc⟩ <;> rw [hc] <;> rfl

/-- The counter stage only appends to the trace: the head event is the
initiating event it was handed. -/
lemma coreCounter_trace_head (swap : Bool) (aRes dRes : List StrikeResult)
    (aU dU : Combatant) (m : GameMap) (rng : Nat → Nat) (k : Nat)
    (e1 : CombatEvent) :
    (coreCounter swap aRes dRes aU dU m rng k e1).trace.head? = some e1 := by
  unfold coreCounter
  dsimp only
  repeat' split
  all_goals first
    | rfl
    | apply coreFollow_head

/-- If the initiating strike kills, the exchange body exits at once:
one-event trace, no counter or follow-up decision recorded, exactly one
strike result across the two buckets. -/
lemma core_c3_lethal (swap : Bool) (aU dU : Combatant) (m : GameMap)
    (rng : Nat → Nat) (k : Nat) :
    ∀ e, (perform_combat_core swap aU dU m rng k).trace.head? = some e →
      e.result.killed = true →
      (perform_combat_core swap aU dU m rng k).trace = [e] ∧
      (perform_combat_core swap aU dU m rng k).counterInfo = none ∧
      (perform_combat_core swap aU dU m rng k).followInfo = none ∧
      (perform_combat_core swap aU dU m rng k).attackerResults.length
        + (perform_combat_core swap aU dU m rng k).defenderResults.length = 1 := by
  unfold perform_combat_core
  cases swap
  · dsimp only
    simp only [Bool.false_eq_true, eq_self_iff_true, if_false, if_true,
      Bool.not_false, Bool.not_true]
    split
    · intro e hh hk
      rw [(finish_combat_proj _ _ _ _ _ _ _ _ _ _ _ _).1] at hh
      simp only [List.head?_cons, Option.some.injEq] at hh
      subst hh
      exact ⟨rfl, rfl, rfl, rfl⟩
    · rename_i hAlive
      intro e hh hk
      rw [coreCounter_trace_head] at hh
      simp only [Option.some.injEq] at hh
      subst hh
      exact absurd hk hAlive
  · dsimp only
    simp only [Bool.false_eq_true, eq_self_iff_true, if_false, if_true,
      Bool.not_false, Bool.not_true]
    split
    · intro e hh hk
      rw [(finish_combat_proj _ _ _ _ _ _ _ _ _ _ _ _).1] at hh
      simp only [List.head?_cons, Option.some.injEq] at hh
      subst hh
      exact ⟨rfl, rfl, rfl, rfl⟩
    · rename_i hAlive
      intro e hh hk
      rw [coreCounter_trace_head] at hh
      simp only [Option.some.injEq] at hh
      subst hh
      exact absurd hk hAlive

/-- With both combatants alive and well-formed at entry, every strike the
exchange body records starts with both sides at strictly positive hp. -/
lemma core_c3_pos (swap : Bool) (aU dU : Combatant) (m : GameMap)
    (rng : Nat → Nat) (k : Nat)
    (hwa : aU.wfb = true) (hwd : dU.wfb = true)
    (haU : 0 < aU.currentHp) (hdU : 0 < dU.currentHp) :
    ∀ e ∈ (perform_combat_core swap aU dU m rng k).trace,
      0 < e.strikerHpBefore ∧ 0 < e.struckHpBefore := by
  unfold perform_combat_core
  cases swap
  · dsimp only
    simp only [Bool.false_eq_true, eq_self_iff_true, if_false, if_true,
      Bool.not_false, Bool.not_true]
    split
    · rw [(finish_combat_proj _ _ _ _ _ _ _ _ _ _ _ _).1]
      intro e he
      simp only [List.mem_singleton] at he
      subst he
      exact ⟨haU, hdU⟩
    · rename_i hAlive
      apply coreCounter_c3
      · exact (strikeBy_true_facts aU dU m rng k hwa hwd).2.1
      · exact (strikeBy_true_facts aU dU m rng k hwa hwd).2.2.1
      · exact lt_of_lt_of_le haU (strikeBy_true_facts aU dU m rng k hwa hwd).1
      · simp only [Combatant.is_dead, decide_eq_true_eq] at hAlive
        omega
      · exact ⟨haU, hdU⟩
  · dsimp only
    simp only [Bool.false_eq_true, eq_self_iff_true, if_false, if_true,
      Bool.not_false, Bool.not_true]
    split
    · rw [(finish_combat_proj _ _ _ _ _ _ _ _ _ _ _ _).1]
      intro e he
      simp only [List.mem_singleton] at he
      subst he
      exact ⟨hdU, haU⟩
    · rename_i hAlive
      apply coreCounter_c3
      · exact (strikeBy_false_facts aU dU m rng k hwa hwd).2.2.1
      · exact (strikeBy_false_facts aU dU m rng k hwa hwd).2.1
      · simp only [Combatant.is_dead, decide_eq_true_eq] at hAlive
        omega
      · exact lt_of_lt_of_le hdU (strikeBy_false_facts aU dU m rng k hwa hwd).1
      · exact ⟨hdU, haU⟩

/-- C3: if the initiating strike kills, perform_combat records no counter
and no follow-up for either side — a one-event trace, no stage decisions,
a single strike result in total; and in general every strike the
encounter records began with both sides at strictly positive hp, so no
strike is performed after either side's hp reaches 0. -/
theorem c3_no_strike_after_death (attacker defender : Combatant) (m : GameMap)
    (rng : Nat → Nat)
    (hwa : attacker.wfb = true) (hwd : defender.wfb = true)
    (ha0 : 0 < attacker.currentHp) (hd0 : 0 < defender.currentHp) :
    (∀ e, (perform_combat attacker defender m rng).trace.head? = some e →
      e.result.killed = true →
      (perform_combat attacker defender m rng).trace = [e] ∧
      (perform_combat attacker defender m rng).counterInfo = none ∧
      (perform_combat attacker defender m rng).followInfo = none ∧
      (perform_combat attacker defender m rng).attackerResults.length
        + (perform_combat attacker defender m rng).defenderResults.length = 1) ∧
    (∀ e ∈ (perform_combat attacker defender m rng).trace,
      0 < e.strikerHpBefore ∧ 0 < e.struckHpBefore) := by
  rw [perform_combat_eq_core]
  exact ⟨core_c3_lethal _ attacker defender m rng 0,
         core_c3_pos _ attacker defender m rng 0 hwa hwd ha0 hd0⟩

/-- C3 witness: on the reference encounter (both sides well-formed and
alive) every recorded strike starts with both sides alive. -/
theorem c3_witness :
    baseU.wfb = true ∧ dfd9.wfb = true ∧
    0 < baseU.currentHp ∧ 0 < dfd9.currentHp ∧
    (∀ e ∈ (perform_combat baseU dfd9 flatM (fun _ => 100)).trace,
      0 < e.strikerHpBefore ∧ 0 < e.struckHpBefore) :=
  ⟨by decide, by decide, by decide, by decide,
   (c3_no_strike_after_death baseU dfd9 flatM (fun _ => 100)
      (by decide) (by decide) (by decide) (by decide)).2⟩


end SRPG
